import Mathlib

/-!
# cc: scaffolding of Claude Code files into a working directory

A shallow embedding of `cmd/init.go`, `internal/generator/generator.go` and the
function `initConfig` of `cmd/root.go`.

The Go code talks to the operating system through `os.Stat`, `os.MkdirAll`,
`os.WriteFile`, `os.Create`, `os.Getwd` and to the standard library through
`filepath.Join`, `filepath.Base`, `text/template`, `time.Format` and, for the
configuration file, viper.  Those are modelled here over an explicit filesystem
state:

* a filesystem is a map from cleaned paths to nodes (a file with its content, or
  a directory) together with a set of paths on which the operating system
  refuses every access (permissions, I/O errors);
* every operation returns the filesystem it leaves behind together with an
  optional error, so that what is on disk after a failure can be stated;
* errors are a function of the filesystem state (there are no transient faults);
* in a filesystem state every node is kept under one path; names that reach a
  node kept under another path (symbolic links, hard links, names differing in
  case only) are modelled on top of it by `AliasedFS`, where every operation is
  carried out at the path its name reaches.

`InitializeProject` is then shown to leave the filesystem, and to fail or not,
exactly as the list `initSteps` of its operations run in order (`runSteps`), and
the properties of the generator are proved on that list.
-/

namespace CC

/-! ## Paths (`path/filepath`) -/

/-- A cleaned path: whether it starts at the root, and its components.  The
working directory is the relative path with no component. -/
structure Path where
  rooted : Bool
  comps : List String
deriving DecidableEq, Repr

/-- The working directory `"."`. -/
def Path.cwd : Path := ⟨false, []⟩

/-- The directory a path lies in: the path without its last component. -/
def Path.parent (p : Path) : Path := ⟨p.rooted, p.comps.dropLast⟩

/-- The pieces of a string between its slashes, as `strings.Split(s, "/")`. -/
def splitSlash : List Char → List (List Char)
  | [] => [[]]
  | c :: cs =>
    match splitSlash cs with
    | [] => [[]]
    | seg :: rest => if c = '/' then [] :: seg :: rest else (c :: seg) :: rest

/-- One step of `filepath.Clean` over the stack of components kept so far (last
component first): empty and `.` components are dropped, `..` removes the
component before it, cannot climb above the root and is kept at the start of a
relative path. -/
def cleanPush (rooted : Bool) (stack : List String) (c : String) : List String :=
  if c = "" ∨ c = "." then stack
  else if c = ".." then
    match stack with
    | [] => if rooted then [] else [".."]
    | top :: rest => if top = ".." then ".." :: stack else rest
  else c :: stack

/-- The cleaned path a path name denotes. -/
def resolve (s : String) : Path :=
  let rooted := decide (s.data.head? = some '/')
  ⟨rooted, (((splitSlash s.data).map String.mk).foldl (cleanPush rooted) []).reverse⟩

/-- Strings joined with a separator, as `strings.Join`. -/
def joinWith (sep : String) : List String → String
  | [] => ""
  | [s] => s
  | s :: rest => s ++ sep ++ joinWith sep rest

/-- The path name of a cleaned path, as `filepath.Clean` prints it. -/
def Path.name (p : Path) : String :=
  if p.rooted then "/" ++ joinWith "/" p.comps
  else if p.comps = [] then "." else joinWith "/" p.comps

/-- The function `filepath.Clean`. -/
def filepathClean (s : String) : String := (resolve s).name

/-- The function `filepath.Join`: the elements from the first non-empty one on,
joined by slashes and cleaned; the empty string when every element is empty. -/
def filepathJoin (elems : List String) : String :=
  match elems.dropWhile (fun e => e = "") with
  | [] => ""
  | es => filepathClean (joinWith "/" es)

/-- The function `filepath.Base`: the last element of a path name. -/
def filepathBase (s : String) : String :=
  if s = "" then "."
  else
    match (((splitSlash s.data).map String.mk).filter (fun c => c ≠ "")).getLast? with
    | none => "/"
    | some b => b

/-! ## Errors -/

/-- The system errors the model distinguishes. -/
inductive Errno
  | ENOENT | EACCES | EEXIST | ENOTDIR | EISDIR | EBADF
deriving DecidableEq, Repr

/-- A Go `error` value: an `*os.PathError`, an error of `text/template`, or an
error wrapped by `fmt.Errorf("...: %w", err)`. -/
inductive GoError
  | pathError (op : String) (path : String) (errno : Errno)
  | template (msg : String)
  | wrapped (msg : String) (cause : GoError)
deriving DecidableEq, Repr

/-! ## The filesystem -/

/-- What a path holds. -/
inductive Node
  | file (content : String)
  | dir
deriving DecidableEq, Repr

/-- A filesystem state: what each path holds, and the paths on which the
operating system refuses every access.  Every node is kept under one path:
there are no symbolic links, no second hard links and no names that differ in
case only; names that reach a node kept under another path are the matter of
`AliasedFS`. -/
structure FS where
  node : Path → Option Node
  noAccess : Path → Bool

/-- The filesystem with the node at one path replaced. -/
def FS.set (fs : FS) (p : Path) (n : Node) : FS :=
  { fs with node := fun q => if q = p then some n else fs.node q }

/-- The filesystem left behind by an operation, and its error if it failed. -/
structure Outcome where
  fs : FS
  err : Option GoError

/-- Sequencing of two operations: the second runs only when the first returned
no error. -/
def Outcome.andThen (r : Outcome) (k : FS → Outcome) : Outcome :=
  match r.err with
  | some _ => r
  | none => k r.fs

/-- An error returned by the first operation is wrapped with a message, as in
`if err := ...; err != nil { return fmt.Errorf("msg: %w", err) }`. -/
def Outcome.wrap (r : Outcome) (msg : String) : Outcome :=
  match r.err with
  | some e => ⟨r.fs, some (GoError.wrapped msg e)⟩
  | none => r

/-- The system call `stat` on a cleaned path. -/
def statPath (fs : FS) (p : Path) : Except Errno Node :=
  if fs.noAccess p then .error .EACCES
  else
    match fs.node p with
    | none => .error .ENOENT
    | some n => .ok n

/-- The function `os.Stat`. -/
def osStat (fs : FS) (name : String) : Except Errno Node :=
  if name = "" then .error .ENOENT else statPath fs (resolve name)

/-- The system call `mkdir` on a cleaned path. -/
def mkdirPath (fs : FS) (p : Path) : Except Errno FS :=
  if fs.noAccess p then .error .EACCES
  else
    match fs.node p with
    | some _ => .error .EEXIST
    | none =>
      match fs.node p.parent with
      | some .dir => .ok (fs.set p .dir)
      | some (.file _) => .error .ENOTDIR
      | none => .error .ENOENT

/-- One level of `os.MkdirAll` at a path: succeed at once on a directory, fail
on a file; otherwise, `parent` being the outcome of making the parent directory,
stop on its error, else call `mkdir`, whose failure is forgiven when the
directory turns out to exist. -/
def mkdirAllAt (name : String) (p : Path) (fs : FS) (parent : Outcome) : Outcome :=
  match statPath fs p with
  | .ok .dir => ⟨fs, none⟩
  | .ok (.file _) => ⟨fs, some (.pathError "mkdir" name .ENOTDIR)⟩
  | .error _ =>
    parent.andThen fun fs1 =>
      match mkdirPath fs1 p with
      | .ok fs2 => ⟨fs2, none⟩
      | .error e =>
        match statPath fs1 p with
        | .ok .dir => ⟨fs1, none⟩
        | _ => ⟨fs1, some (.pathError "mkdir" name e)⟩

/-- The recursion of `os.MkdirAll` over the components of a path, last component
first.  The parent of a path is the path without its last component; a relative
path of one component has no parent to make, and neither has the root. -/
def mkdirAllAux (name : String) (rooted : Bool) : List String → FS → Outcome
  | [], fs => mkdirAllAt name ⟨rooted, []⟩ fs ⟨fs, none⟩
  | c :: rest, fs =>
    mkdirAllAt name ⟨rooted, (c :: rest).reverse⟩ fs
      (if rest = [] ∧ rooted = false then ⟨fs, none⟩ else mkdirAllAux name rooted rest fs)

/-- The function `os.MkdirAll`. -/
def osMkdirAll (name : String) (fs : FS) : Outcome :=
  if name = "" then ⟨fs, some (.pathError "mkdir" name .ENOENT)⟩
  else mkdirAllAux name (resolve name).rooted (resolve name).comps.reverse fs

/-- Opening a path with `O_CREATE|O_TRUNC`: an existing file is emptied, a
missing one is created in an existing directory.  The node opened is the one
kept under the path itself; where the name is an alias the call reaches the
node under another path (`Step.redirect`). -/
def openTrunc (name : String) (fs : FS) : Outcome :=
  if name = "" then ⟨fs, some (.pathError "open" name .ENOENT)⟩
  else
    let p := resolve name
    if fs.noAccess p then ⟨fs, some (.pathError "open" name .EACCES)⟩
    else
      match fs.node p with
      | some .dir => ⟨fs, some (.pathError "open" name .EISDIR)⟩
      | some (.file _) => ⟨fs.set p (.file ""), none⟩
      | none =>
        match fs.node p.parent with
        | some .dir => ⟨fs.set p (.file ""), none⟩
        | some (.file _) => ⟨fs, some (.pathError "open" name .ENOTDIR)⟩
        | none => ⟨fs, some (.pathError "open" name .ENOENT)⟩

/-- A write of `data` at the end of the open file `name`. -/
def fileWrite (name : String) (data : String) (fs : FS) : Outcome :=
  match fs.node (resolve name) with
  | some (.file c) => ⟨fs.set (resolve name) (.file (c ++ data)), none⟩
  | _ => ⟨fs, some (.pathError "write" name .EBADF)⟩

/-- The function `os.Create`. -/
def osCreate (name : String) (fs : FS) : Outcome := openTrunc name fs

/-- The function `os.WriteFile`: open with truncation, write, close. -/
def osWriteFile (name : String) (data : String) (fs : FS) : Outcome :=
  (openTrunc name fs).andThen (fileWrite name data)

/-! ## Configuration and fixed texts (`internal/generator/generator.go`) -/

/-- The type `ProjectConfig`. -/
structure ProjectConfig where
  Name : String
  «Type» : String
  Description : String
  GitHubUsername : String
  Overwrite : Bool
  DryRun : Bool
  Verbose : Bool
  Integration : Bool

/-- The text made of the given lines, each followed by a newline. -/
def unlines : List String → String
  | [] => ""
  | l :: rest => l ++ "\n" ++ unlines rest

/-- The template text `tmpl` of `generateClaudeMD`. -/
def claudeMDTemplate : String :=
  unlines [
    "# \x7b\x7b.Name\x7d\x7d",
    "",
    "\x7b\x7b.Description\x7d\x7d",
    "",
    "This project has been optimized for Claude Code development.",
    "",
    "## Quick Commands",
    "",
    "```bash",
    "# Development",
    "make dev          # Start development environment",
    "make test         # Run all tests",
    "make lint         # Run linting and formatting",
    "make build        # Build the project",
    "",
    "# Claude Code Integration",
    "claude            # Start Claude Code interactive session",
    "claude -p \"help\"  # Quick help",
    "claude -c         # Continue last session",
    "```",
    "",
    "## Project Structure",
    "",
    "- `.claude/` - Claude Code configuration",
    "- `.github/workflows/` - CI/CD pipelines",
    "- `Makefile` - Development commands",
    "- `.pre-commit-config.yaml` - Code quality hooks",
    "",
    "## Development Workflow",
    "",
    "1. Use `make install` to install dependencies",
    "2. Use `make dev` to start development",
    "3. Run `make test` before committing",
    "4. Use `claude` for AI assistance",
    "5. Commit with conventional commit messages",
    "",
    "## Claude Code Features",
    "",
    "This project includes:",
    "- Pre-configured project memory (this file)",
    "- Integration with development tools via Makefile",
    "- GitHub workflows and templates",
    "- Pre-commit hooks for code quality",
    "- Claude Code configuration in `.claude/` directory",
    "",
    "## Getting Started",
    "",
    "1. Install dependencies: `make install`",
    "2. Start development: `make dev`",
    "3. Run tests: `make test`",
    "4. Open Claude Code: `claude`",
    "",
    "## Useful Claude Code Commands",
    "",
    "- `claude -p \"explain the project structure\"` - Get project overview",
    "- `claude -p \"help with testing\"` - Get testing assistance",
    "- `claude -p \"review my changes\"` - Code review help",
    "- `claude --dry-run` - Preview actions without making changes",
    "",
    "For more information, see the `.claude/README.md` file for Claude Code configuration options.",
    "",
    "---",
    "*Generated by cc on \x7b\x7b.Date\x7d\x7d*"]

/-- The text `content` of `generateGitIgnore`. -/
def gitIgnoreContent : String :=
  unlines [
    "# Claude Code",
    ".claude/local/",
    "*.claude-session",
    "",
    "# Common",
    ".env",
    ".env.local",
    "*.log",
    ".DS_Store",
    ".vscode/",
    ".idea/",
    "",
    "# Dependencies",
    "node_modules/",
    "venv/",
    "__pycache__/",
    "*.pyc",
    "",
    "# Build artifacts",
    "dist/",
    "build/",
    "*.egg-info/",
    "target/",
    "",
    "# Test coverage",
    ".coverage",
    "htmlcov/",
    ".pytest_cache/",
    "",
    "# OS specific",
    "Thumbs.db",
    "",
    "# Add project-specific ignores below this line"]

/-- The text `content` of `generatePreCommitConfig`. -/
def preCommitContent : String :=
  unlines [
    "# Pre-commit configuration for code quality",
    "# Install with: pre-commit install",
    "",
    "repos:",
    "  - repo: https://github.com/pre-commit/pre-commit-hooks",
    "    rev: v4.4.0",
    "    hooks:",
    "      - id: trailing-whitespace",
    "      - id: end-of-file-fixer",
    "      - id: check-yaml",
    "      - id: check-added-large-files",
    "      - id: check-merge-conflict",
    "      ",
    "  - repo: local",
    "    hooks:",
    "      - id: test",
    "        name: run tests",
    "        entry: make test",
    "        language: system",
    "        pass_filenames: false",
    "        ",
    "      - id: lint",
    "        name: run linting",
    "        entry: make lint",
    "        language: system",
    "        pass_filenames: false",
    "",
    "# Add project-specific pre-commit hooks below this line"]

/-- The text `content` of `generateClaudeExamples`. -/
def claudeReadmeContent : String :=
  unlines [
    "# .claude Directory",
    "",
    "This directory contains Claude Code configuration and project-specific settings.",
    "",
    "## What goes here?",
    "",
    "- Custom Claude Code configurations",
    "- Project-specific prompts and workflows",
    "- Local Claude Code settings (not committed to git)",
    "- Integration configurations for MCP servers",
    "",
    "## Getting Started",
    "",
    "This directory is automatically created by the cc tool. You can customize it",
    "based on your project\x27s specific needs."]

/-- The text `bugReportContent` of `generateGitHubIntegration`. -/
def bugReportContent (config : ProjectConfig) : String :=
  unlines [
    "---",
    "name: Bug report",
    "about: Create a report to help us improve",
    "title: \x27\x27",
    "labels: bug"] ++
  "assignees: " ++
  config.GitHubUsername ++
  unlines [
    "",
    "",
    "---",
    "",
    "**Describe the bug**",
    "A clear and concise description of what the bug is.",
    "",
    "**To Reproduce**",
    "Steps to reproduce the behavior:",
    "1. Go to \x27...\x27",
    "2. Click on \x27....\x27",
    "3. Scroll down to \x27....\x27",
    "4. See error",
    "",
    "**Expected behavior**",
    "A clear and concise description of what you expected to happen.",
    "",
    "**Screenshots**",
    "If applicable, add screenshots to help explain your problem.",
    "",
    "**Environment (please complete the following information):**",
    " - OS: [e.g. iOS]",
    " - Version [e.g. 22]",
    "",
    "**Additional context**",
    "Add any other context about the problem here."]

/-- The text `featureRequestContent` of `generateGitHubIntegration`. -/
def featureRequestContent (config : ProjectConfig) : String :=
  unlines [
    "---",
    "name: Feature request",
    "about: Suggest an idea for this project",
    "title: \x27\x27",
    "labels: enhancement"] ++
  "assignees: " ++
  config.GitHubUsername ++
  unlines [
    "",
    "",
    "---",
    "",
    "**Is your feature request related to a problem? Please describe.**",
    "A clear and concise description of what the problem is. Ex. I\x27m always frustrated when [...]",
    "",
    "**Describe the solution you\x27d like**",
    "A clear and concise description of what you want to happen.",
    "",
    "**Describe alternatives you\x27ve considered**",
    "A clear and concise description of any alternative solutions or features you\x27ve considered.",
    "",
    "**Additional context**",
    "Add any other context or screenshots about the feature request here."]

/-- The text `prTemplateContent` of `generateGitHubIntegration`. -/
def prTemplateContent : String :=
  unlines [
    "## Description",
    "",
    "Please include a summary of the changes and the related issue. Please also include relevant motivation and context.",
    "",
    "Fixes # (issue)",
    "",
    "## Type of change",
    "",
    "Please delete options that are not relevant.",
    "",
    "- [ ] Bug fix (non-breaking change which fixes an issue)",
    "- [ ] New feature (non-breaking change which adds functionality)",
    "- [ ] Breaking change (fix or feature that would cause existing functionality to not work as expected)",
    "- [ ] This change requires a documentation update",
    "",
    "## How Has This Been Tested?",
    "",
    "Please describe the tests that you ran to verify your changes. Provide instructions so we can reproduce.",
    "",
    "- [ ] Test A",
    "- [ ] Test B",
    "",
    "## Checklist:",
    "",
    "- [ ] My code follows the style guidelines of this project",
    "- [ ] I have performed a self-review of my code",
    "- [ ] I have commented my code, particularly in hard-to-understand areas",
    "- [ ] I have made corresponding changes to the documentation",
    "- [ ] My changes generate no new warnings",
    "- [ ] I have added tests that prove my fix is effective or that my feature works",
    "- [ ] New and existing unit tests pass locally with my changes",
    "- [ ] Any dependent changes have been merged and published"]

/-- The text `contributingContent` of `generateGitHubIntegration`. -/
def contributingContent (config : ProjectConfig) : String :=
  "# Contributing to " ++
  config.Name ++
  unlines [
    "",
    ""] ++
  "First off, thank you for considering contributing to " ++
  config.Name ++
  "! It\x27s people like you that make " ++
  config.Name ++
  unlines [
    " such a great tool.",
    "",
    "## Where do I go from here?",
    ""] ++
  "If you\x27ve noticed a bug or have a feature request, make sure to check our [Issues](https://github.com/" ++
  config.GitHubUsername ++
  "/" ++
  config.Name ++
  unlines [
    "/issues) if there\x27s something similar to what you have in mind. If there isn\x27t, feel free to open a new issue!",
    "",
    "## Fork & create a branch",
    ""] ++
  "If this is something you think you can fix, then fork " ++
  config.Name ++
  unlines [
    " and create a branch with a descriptive name.",
    "",
    "A good branch name would be:",
    "",
    "```",
    "git checkout -b 325-add-japanese-translations",
    "```",
    "",
    "## Get the test suite running",
    "",
    "Make sure you\x27re using a recent version of the development tools:",
    "",
    "```bash",
    "make install",
    "make test",
    "```",
    "",
    "## Implement your fix or feature",
    "",
    "At this point, you\x27re ready to make your changes! Feel free to ask for help; everyone is a beginner at first.",
    "",
    "## View your changes",
    "",
    "Make sure to take a look at your changes in a real environment.",
    "",
    "## Get the style right",
    "",
    "Your patch should follow the same conventions & pass the same code quality checks as the rest of the project.",
    "",
    "```bash",
    "make lint",
    "```",
    "",
    "## Make a Pull Request",
    ""] ++
  "At this point, you should switch back to your main branch and make sure it\x27s up to date with the latest " ++
  config.Name ++
  unlines [
    " main branch:",
    "",
    "```bash"] ++
  "git remote add upstream git@github.com:" ++
  config.GitHubUsername ++
  "/" ++
  config.Name ++
  unlines [
    ".git",
    "git checkout main",
    "git pull upstream main",
    "```",
    "",
    "Then update your feature branch from your local copy of main, and push it!",
    "",
    "```bash",
    "git checkout 325-add-japanese-translations",
    "git rebase main",
    "git push --set-upstream origin 325-add-japanese-translations",
    "```",
    "",
    "Finally, go to GitHub and make a Pull Request!",
    "",
    "## Keeping your Pull Request updated",
    "",
    "If a maintainer asks you to \"rebase\" your PR, they\x27re saying that a lot of code has changed, and that you need to update your branch so it\x27s easier to merge.",
    "",
    "## Merging a PR (maintainers only)",
    "",
    "A PR can only be merged into main by a maintainer if:",
    "",
    "* It is passing CI.",
    "* It has been approved by at least two maintainers. If it was a maintainer who opened the PR, only one extra approval is needed.",
    "* It has no requested changes.",
    "* It is up to date with current main.",
    "",
    "Any maintainer is allowed to merge a PR if all of these conditions are met."]

/-- The text `licenseContent` of `generateGitHubIntegration`. -/
def licenseContent (config : ProjectConfig) : String :=
  unlines [
    "MIT License",
    ""] ++
  "Copyright (c) 2024 " ++
  config.GitHubUsername ++
  unlines [
    "",
    "",
    "Permission is hereby granted, free of charge, to any person obtaining a copy",
    "of this software and associated documentation files (the \"Software\"), to deal",
    "in the Software without restriction, including without limitation the rights",
    "to use, copy, modify, merge, publish, distribute, sublicense, and/or sell",
    "copies of the Software, and to permit persons to whom the Software is",
    "furnished to do so, subject to the following conditions:",
    "",
    "The above copyright notice and this permission notice shall be included in all",
    "copies or substantial portions of the Software.",
    "",
    "THE SOFTWARE IS PROVIDED \"AS IS\", WITHOUT WARRANTY OF ANY KIND, EXPRESS OR",
    "IMPLIED, INCLUDING BUT NOT LIMITED TO THE WARRANTIES OF MERCHANTABILITY,",
    "FITNESS FOR A PARTICULAR PURPOSE AND NONINFRINGEMENT. IN NO EVENT SHALL THE",
    "AUTHORS OR COPYRIGHT HOLDERS BE LIABLE FOR ANY CLAIM, DAMAGES OR OTHER",
    "LIABILITY, WHETHER IN AN ACTION OF CONTRACT, TORT OR OTHERWISE, ARISING FROM,",
    "OUT OF OR IN CONNECTION WITH THE SOFTWARE OR THE USE OR OTHER DEALINGS IN THE",
    "SOFTWARE."]

/-- The text `content` of `generateGenericMakefile`. -/
def makefileContent (config : ProjectConfig) : String :=
  "# Makefile for " ++
  config.Name ++
  unlines [
    "",
    "# Generated by cc - Claude Code optimization tool",
    "",
    ".PHONY: help install dev test lint build clean",
    "",
    "help:",
    "\t@echo \"Available commands:\"",
    "\t@echo \"  make install   - Install dependencies\"",
    "\t@echo \"  make dev       - Start development environment\"",
    "\t@echo \"  make test      - Run tests\"",
    "\t@echo \"  make lint      - Run linting and formatting\"",
    "\t@echo \"  make build     - Build the project\"",
    "\t@echo \"  make clean     - Clean build artifacts\"",
    "",
    "install:",
    "\t@echo \"Installing dependencies...\"",
    "\t@echo \"Add your dependency installation commands here\"",
    "",
    "dev:",
    "\t@echo \"Starting development environment...\"",
    "\t@echo \"Add your development startup commands here\"",
    "",
    "test:",
    "\t@echo \"Running tests...\"",
    "\t@echo \"Add your test commands here\"",
    "",
    "lint:",
    "\t@echo \"Running linting and formatting...\"",
    "\t@echo \"Add your linting commands here\"",
    "",
    "build:",
    "\t@echo \"Building project...\"",
    "\t@echo \"Add your build commands here\"",
    "",
    "clean:",
    "\t@echo \"Cleaning build artifacts...\"",
    "\trm -rf dist/ build/ *.egg-info/ target/",
    "\tfind . -type d -name __pycache__ -exec rm -rf \x7b\x7d + 2>/dev/null || true",
    "\tfind . -type f -name \"*.pyc\" -delete 2>/dev/null || true"]

/-- The text `content` of `generateGenericGitHubWorkflow`. -/
def workflowContent : String :=
  unlines [
    "name: CI",
    "",
    "on:",
    "  push:",
    "    branches: [main]",
    "  pull_request:",
    "    branches: [main]",
    "",
    "jobs:",
    "  test:",
    "    runs-on: ubuntu-latest",
    "    steps:",
    "      - uses: actions/checkout@v4",
    "      ",
    "      - name: Run tests",
    "        run: make test",
    "        ",
    "      - name: Run linting  ",
    "        run: make lint",
    "        ",
    "      - name: Build project",
    "        run: make build"]

/-! ## The fragment of `text/template` the generator uses -/

/-- A parsed template: literal text and field actions `{{.Field}}`. -/
inductive TNode
  | text (s : String)
  | field (name : String)
deriving DecidableEq, Repr

/-- The text collected so far (last character first) becomes a text node. -/
def pushText (cur : List Char) (done : List TNode) : List TNode :=
  if cur = [] then done else .text (String.mk cur.reverse) :: done

/-- The field an action names: a dot and an identifier between optional blanks. -/
def actionField (body : List Char) : Option String :=
  match (body.dropWhile (fun c => c = ' ')).reverse.dropWhile (fun c => c = ' ') with
  | [] => none
  | revBody =>
    match revBody.reverse with
    | '.' :: ident =>
      if ident ≠ [] ∧ ident.all (fun c => c.isAlphanum || c = '_') then some (String.mk ident)
      else none
    | _ => none

/-- The scanner of `template.Parse`: text up to an opening `{{`, then an action
up to the closing `}}`.  Only field actions are accepted; an action left open
or of another form is a parse error. -/
def templateParseAux : List Char → Bool → List Char → List TNode → Except String (List TNode)
  | [], inAction, cur, done =>
    if inAction then .error "unclosed action" else .ok (pushText cur done).reverse
  | [c], inAction, cur, done =>
    if inAction then .error "unclosed action" else .ok (pushText (c :: cur) done).reverse
  | c :: d :: rest, inAction, cur, done =>
    if inAction = false ∧ c = '{' ∧ d = '{' then
      templateParseAux rest true [] (pushText cur done)
    else if inAction = true ∧ c = '}' ∧ d = '}' then
      match actionField cur.reverse with
      | some f => templateParseAux rest false [] (.field f :: done)
      | none => .error "unsupported action"
    else templateParseAux (d :: rest) inAction (c :: cur) done

/-- The call `template.New(name).Parse(text)`. -/
def templateParse (text : String) : Except String (List TNode) :=
  templateParseAux text.data false [] []

/-- The call `t.Execute(file, data)`: every node is written to the open file in
turn; a field the data does not have stops the execution with an error. -/
def templateExecute (file : String) (data : String → Option String) : List TNode → FS → Outcome
  | [], fs => ⟨fs, none⟩
  | .text s :: rest, fs => (fileWrite file s fs).andThen (templateExecute file data rest)
  | .field f :: rest, fs =>
    match data f with
    | none => ⟨fs, some (.template ("can't evaluate field " ++ f))⟩
    | some v => (fileWrite file v fs).andThen (templateExecute file data rest)

/-! ## Dates (`time`) -/

/-- The calendar date of `time.Now()`. -/
structure Date where
  year : Nat
  month : Nat
  day : Nat
deriving DecidableEq, Repr

/-- The decimal digit of the units of a number. -/
def digitChar (n : Nat) : Char := Char.ofNat (48 + n % 10)

/-- The decimal digits of a number, units first. -/
def digitsRev : Nat → Nat → List Char
  | 0, _ => []
  | fuel + 1, n => digitChar n :: (if n / 10 = 0 then [] else digitsRev fuel (n / 10))

/-- The decimal form of a number, padded with zeros up to a width, as `appendInt`
of package `time`. -/
def appendInt (x width : Nat) : String :=
  let ds := (digitsRev (x + 1) x).reverse
  String.mk (List.replicate (width - ds.length) '0' ++ ds)

/-- The call `t.Format("2006-01-02")`. -/
def Date.format (d : Date) : String :=
  appendInt d.year 4 ++ "-" ++ appendInt d.month 2 ++ "-" ++ appendInt d.day 2

/-! ## The generator -/

/-- The method `Generator.writeFile`. -/
def writeFile (path content : String) (fs : FS) : Outcome :=
  osWriteFile path content fs

/-- The method `Generator.CheckExistingClaudeFiles`. -/
def CheckExistingClaudeFiles (dir : String) (fs : FS) : List String :=
  let claudeFiles := ["CLAUDE.md", ".claude/"]
  claudeFiles.foldl
    (fun existing file =>
      match osStat fs (filepathJoin [dir, file]) with
      | .ok _ => existing ++ [file]
      | .error _ => existing)
    []

/-- The loop of `createClaudeStructure` over the directories still to make. -/
def createDirs (projectPath : String) : List String → FS → Outcome
  | [], fs => ⟨fs, none⟩
  | dir :: rest, fs =>
    let dirPath := filepathJoin [projectPath, dir]
    ((osMkdirAll dirPath fs).wrap ("failed to create directory " ++ dirPath)).andThen
      (createDirs projectPath rest)

/-- The method `Generator.createClaudeStructure`. -/
def createClaudeStructure (projectPath : String) (_config : ProjectConfig) (fs : FS) : Outcome :=
  let dirs := [".claude", ".github", ".github/workflows"]
  createDirs projectPath dirs fs

/-- The data handed to the template of `CLAUDE.md`. -/
def claudeMDData (config : ProjectConfig) (now : Date) : String → Option String
  | "Name" => some config.Name
  | "Description" => some config.Description
  | "Date" => some now.format
  | _ => none

/-- The method `Generator.generateClaudeMD`. -/
def generateClaudeMD (projectPath : String) (config : ProjectConfig) (now : Date) (fs : FS) :
    Outcome :=
  match templateParse claudeMDTemplate with
  | .error e => ⟨fs, some (.wrapped "failed to parse template" (.template e))⟩
  | .ok t =>
    let file := filepathJoin [projectPath, "CLAUDE.md"]
    ((osCreate file fs).wrap "failed to create CLAUDE.md").andThen
      (templateExecute file (claudeMDData config now) t)

/-- The method `Generator.generateGitIgnore`. -/
def generateGitIgnore (projectPath : String) (_config : ProjectConfig) (fs : FS) : Outcome :=
  writeFile (filepathJoin [projectPath, ".gitignore"]) gitIgnoreContent fs

/-- The method `Generator.generatePreCommitConfig`. -/
def generatePreCommitConfig (projectPath : String) (_config : ProjectConfig) (fs : FS) : Outcome :=
  writeFile (filepathJoin [projectPath, ".pre-commit-config.yaml"]) preCommitContent fs

/-- The method `Generator.generateClaudeExamples`. -/
def generateClaudeExamples (projectPath : String) (_config : ProjectConfig) (fs : FS) : Outcome :=
  let claudeDir := filepathJoin [projectPath, ".claude"]
  ((osMkdirAll claudeDir fs).wrap "failed to create .claude directory").andThen
    (writeFile (filepathJoin [claudeDir, "README.md"]) claudeReadmeContent)

/-- The method `Generator.generateGenericMakefile`. -/
def generateGenericMakefile (projectPath : String) (config : ProjectConfig) (fs : FS) : Outcome :=
  writeFile (filepathJoin [projectPath, "Makefile"]) (makefileContent config) fs

/-- The method `Generator.generateGenericGitHubWorkflow`. -/
def generateGenericGitHubWorkflow (projectPath : String) (_config : ProjectConfig) (fs : FS) :
    Outcome :=
  let workflowDir := filepathJoin [projectPath, ".github", "workflows"]
  ((osMkdirAll workflowDir fs).wrap "failed to create workflow directory").andThen
    (writeFile (filepathJoin [workflowDir, "ci.yml"]) workflowContent)

/-- The method `Generator.generateGitHubIntegration`. -/
def generateGitHubIntegration (projectPath : String) (config : ProjectConfig) (fs : FS) :
    Outcome :=
  let issueTemplateDir := filepathJoin [projectPath, ".github", "ISSUE_TEMPLATE"]
  ((osMkdirAll issueTemplateDir fs).wrap "failed to create issue template directory").andThen
    fun fs =>
  (writeFile (filepathJoin [issueTemplateDir, "bug_report.md"]) (bugReportContent config) fs).andThen
    fun fs =>
  (writeFile (filepathJoin [issueTemplateDir, "feature_request.md"])
    (featureRequestContent config) fs).andThen fun fs =>
  (writeFile (filepathJoin [projectPath, ".github", "pull_request_template.md"])
    prTemplateContent fs).andThen fun fs =>
  (writeFile (filepathJoin [projectPath, "CONTRIBUTING.md"]) (contributingContent config) fs).andThen
    fun fs =>
  writeFile (filepathJoin [projectPath, "LICENSE"]) (licenseContent config) fs

/-- The method `Generator.generateDevelopmentFiles`. -/
def generateDevelopmentFiles (projectPath : String) (config : ProjectConfig) (fs : FS) : Outcome :=
  (generateGitIgnore projectPath config fs).andThen fun fs =>
  (generateGenericMakefile projectPath config fs).andThen fun fs =>
  (generatePreCommitConfig projectPath config fs).andThen fun fs =>
  generateGenericGitHubWorkflow projectPath config fs

/-- The method `Generator.generateClaudeFiles`. -/
def generateClaudeFiles (projectPath : String) (config : ProjectConfig) (now : Date) (fs : FS) :
    Outcome :=
  (generateClaudeMD projectPath config now fs).andThen fun fs =>
  generateClaudeExamples projectPath config fs

/-- The method `Generator.InitializeProject`. -/
def InitializeProject (config : ProjectConfig) (now : Date) (fs : FS) : Outcome :=
  ((createClaudeStructure "." config fs).wrap "failed to create Claude structure").andThen
    fun fs =>
  ((generateClaudeFiles "." config now fs).wrap "failed to generate Claude files").andThen
    fun fs =>
  ((generateDevelopmentFiles "." config fs).wrap "failed to generate development files").andThen
    fun fs =>
  if config.GitHubUsername ≠ "" then
    (generateGitHubIntegration "." config fs).wrap "failed to generate GitHub integration"
  else ⟨fs, none⟩

/-! ## The `init` command (`cmd/init.go`) -/

/-- The package variables bound to the flags of `init`. -/
structure InitFlags where
  description : String
  github : String
  overwrite : Bool

/-- The values `viper.GetBool("dry-run")` and `viper.GetBool("verbose")`. -/
structure ViperConfig where
  dryRun : Bool
  verbose : Bool

/-- The process state `runInit` reads: the result of `os.Getwd()` and the date
of `time.Now()`. -/
structure Process where
  getwd : Except Errno String
  now : Date

/-- What a run of the command leaves: the filesystem, the text printed on the
standard output, and the error returned. -/
structure RunResult where
  fs : FS
  stdout : List String
  err : Option GoError

/-- The function `runInit`. -/
def runInit (flags : InitFlags) (viper : ViperConfig) (proc : Process) (fs : FS) : RunResult :=
  match proc.getwd with
  | .error e =>
    ⟨fs, [], some (.wrapped "failed to get current directory" (.pathError "getwd" "" e))⟩
  | .ok cwd =>
    let projectName := filepathBase cwd
    let description :=
      if flags.description = "" then "A project optimized for Claude Code development"
      else flags.description
    let existing := CheckExistingClaudeFiles "." fs
    let out1 :=
      if existing.length > 0 ∧ flags.overwrite = false then
        ["Found existing Claude Code files: [" ++ joinWith " " existing ++ "]\n",
         "Use --overwrite to replace existing files\n",
         "Or run with different flags to add missing files\n"]
      else []
    let config : ProjectConfig :=
      { Name := projectName
        «Type» := ""
        Description := description
        GitHubUsername := flags.github
        Overwrite := flags.overwrite
        DryRun := viper.dryRun
        Verbose := viper.verbose
        Integration := true }
    let out2 :=
      if config.Verbose then
        ["Initializing Claude Code optimization for: " ++ projectName ++ "\n",
         "Description: " ++ config.Description ++ "\n"] ++
        (if config.GitHubUsername ≠ "" then
          ["GitHub integration: " ++ config.GitHubUsername ++ "\n"] else [])
      else []
    if config.DryRun then
      ⟨fs, out1 ++ out2 ++ ["DRY RUN - No files will be created\n"], none⟩
    else
      let r := InitializeProject config proc.now fs
      match r.err with
      | some e =>
        ⟨r.fs, out1 ++ out2,
          some (.wrapped "failed to initialize Claude Code optimization" e)⟩
      | none =>
        ⟨r.fs,
          out1 ++ out2 ++
          ["✅ Successfully initialized Claude Code optimization for " ++ projectName ++ "\n",
           "\nNext steps:\n",
           "1. Review the generated CLAUDE.md file\n",
           "2. Check the .claude/ directory for examples\n",
           "3. Run \x27claude\x27 to start using Claude Code\n"] ++
          (if config.GitHubUsername ≠ "" then
            ["4. Commit and push your changes to GitHub\n"] else []),
          none⟩

/-! ## The sequence of filesystem operations -/

/-- One operation on the filesystem: an `os.MkdirAll` of a path name, or the
writing of a whole file. -/
inductive Step
  | mkdirAll (name : String)
  | write (name : String) (content : String)
deriving DecidableEq, Repr

/-- The effect of one operation. -/
def Step.run : Step → FS → Outcome
  | .mkdirAll name, fs => osMkdirAll name fs
  | .write name content, fs => writeFile name content fs

/-- The operations run in order, up to the first that fails. -/
def runSteps : List Step → FS → Outcome
  | [], fs => ⟨fs, none⟩
  | s :: rest, fs => (s.run fs).andThen (runSteps rest)

/-- The path a write operation writes to. -/
def Step.target : Step → Option Path
  | .mkdirAll _ => none
  | .write name _ => some (resolve name)

/-- The paths written to by a sequence of operations. -/
def writeTargets (steps : List Step) : List Path := steps.filterMap Step.target

/-- The text a parsed template renders to, when the data has all its fields. -/
def renderNodes (data : String → Option String) : List TNode → Option String
  | [] => some ""
  | .text s :: rest => (renderNodes data rest).map (fun t => s ++ t)
  | .field f :: rest =>
    match data f with
    | none => none
    | some v => (renderNodes data rest).map (fun t => v ++ t)

/-- The parsed template of `generateClaudeMD`. -/
def claudeMDNodes : List TNode :=
  match templateParse claudeMDTemplate with
  | .error _ => []
  | .ok t => t

/-- The text of the template of `generateClaudeMD` between the description and
the date. -/
def claudeMDBody : String :=
  match claudeMDNodes with
  | [_, _, _, _, .text m, _, _] => m
  | _ => ""

/-- The text of `CLAUDE.md`: the template of `generateClaudeMD` rendered with
the name, the description and the date. -/
def claudeMDText (config : ProjectConfig) (now : Date) : String :=
  match templateParse claudeMDTemplate with
  | .error _ => ""
  | .ok t => (renderNodes (claudeMDData config now) t).getD ""

/-- The operations of `InitializeProject` that do not depend on the GitHub
username, in the order of the calls: `createClaudeStructure`,
`generateClaudeFiles`, `generateDevelopmentFiles`. -/
def baseSteps (config : ProjectConfig) (now : Date) : List Step :=
  [ .mkdirAll ".claude",
    .mkdirAll ".github",
    .mkdirAll ".github/workflows",
    .write "CLAUDE.md" (claudeMDText config now),
    .mkdirAll ".claude",
    .write ".claude/README.md" claudeReadmeContent,
    .write ".gitignore" gitIgnoreContent,
    .write "Makefile" (makefileContent config),
    .write ".pre-commit-config.yaml" preCommitContent,
    .mkdirAll ".github/workflows",
    .write ".github/workflows/ci.yml" workflowContent ]

/-- The operations of `generateGitHubIntegration`, in the order of the calls. -/
def githubSteps (config : ProjectConfig) : List Step :=
  [ .mkdirAll ".github/ISSUE_TEMPLATE",
    .write ".github/ISSUE_TEMPLATE/bug_report.md" (bugReportContent config),
    .write ".github/ISSUE_TEMPLATE/feature_request.md" (featureRequestContent config),
    .write ".github/pull_request_template.md" prTemplateContent,
    .write "CONTRIBUTING.md" (contributingContent config),
    .write "LICENSE" (licenseContent config) ]

/-- The operations of `InitializeProject`, in the order of the calls. -/
def initSteps (config : ProjectConfig) (now : Date) : List Step :=
  baseSteps config now ++ (if config.GitHubUsername ≠ "" then githubSteps config else [])

/-- The six paths written for every configuration. -/
def basePaths : List Path :=
  [ ⟨false, ["CLAUDE.md"]⟩,
    ⟨false, [".claude", "README.md"]⟩,
    ⟨false, [".gitignore"]⟩,
    ⟨false, ["Makefile"]⟩,
    ⟨false, [".pre-commit-config.yaml"]⟩,
    ⟨false, [".github", "workflows", "ci.yml"]⟩ ]

/-- The five paths written when a GitHub username is given. -/
def githubPaths : List Path :=
  [ ⟨false, [".github", "ISSUE_TEMPLATE", "bug_report.md"]⟩,
    ⟨false, [".github", "ISSUE_TEMPLATE", "feature_request.md"]⟩,
    ⟨false, [".github", "pull_request_template.md"]⟩,
    ⟨false, ["CONTRIBUTING.md"]⟩,
    ⟨false, ["LICENSE"]⟩ ]

/-- The paths `InitializeProject` writes to under a configuration. -/
def initPaths (config : ProjectConfig) : List Path :=
  basePaths ++ (if config.GitHubUsername ≠ "" then githubPaths else [])

/-- An empty working directory every path of which is accessible. -/
def emptyFS : FS :=
  { node := fun p => if p = Path.cwd then some .dir else none
    noAccess := fun _ => false }

/-- A working directory that holds a `CLAUDE.md` written by hand. -/
def fsWithClaudeMD : FS :=
  { node := fun p =>
      if p = Path.cwd then some .dir
      else if p = ⟨false, ["CLAUDE.md"]⟩ then some (.file "my notes\n")
      else none
    noAccess := fun _ => false }

/-- A working directory that holds a `Makefile` and no Claude Code file. -/
def fsWithMakefile : FS :=
  { node := fun p =>
      if p = Path.cwd then some .dir
      else if p = ⟨false, ["Makefile"]⟩ then some (.file "all:\n\tgo build ./...\n")
      else none
    noAccess := fun _ => false }

/-- A working directory in which `Makefile` is a directory. -/
def fsMakefileDir : FS :=
  { node := fun p =>
      if p = Path.cwd then some .dir
      else if p = ⟨false, ["Makefile"]⟩ then some .dir
      else none
    noAccess := fun _ => false }

/-- A process started in `/home/u/proj` on 4 November 2026. -/
def sampleProcess : Process :=
  { getwd := .ok "/home/u/proj", now := ⟨2026, 11, 4⟩ }

/-- A process whose working directory cannot be resolved. -/
def lostProcess : Process :=
  { getwd := .error .ENOENT, now := ⟨2026, 11, 4⟩ }

/-- A configuration with a GitHub username and `Overwrite` set. -/
def sampleConfig : ProjectConfig :=
  { Name := "proj"
    «Type» := ""
    Description := "A \x7b\x7bsmall\x7d\x7d project"
    GitHubUsername := "octocat"
    Overwrite := true
    DryRun := false
    Verbose := false
    Integration := true }

/-- Two outcomes that leave the same filesystem and agree on whether an error
was returned (the error values may differ in their messages). -/
def Outcome.sim (r s : Outcome) : Prop :=
  r.fs = s.fs ∧ (r.err = none ↔ s.err = none)

/-- An operation whose effect is already in place in a filesystem: the
directory exists, or the file exists with the content to write. -/
def Settled (fs : FS) : Step → Prop
  | .mkdirAll name => name ≠ "" ∧ statPath fs (resolve name) = .ok .dir
  | .write name content =>
    name ≠ "" ∧ fs.noAccess (resolve name) = false ∧
      fs.node (resolve name) = some (.file content)

/-- How a filesystem may change under the operations of the generator: access
rights stay as they are, and a path either keeps its node, or was missing and
is now a directory among `D`, or is among `W`, was not a directory and is now a
file. -/
def Evolves (W D : Path → Prop) (fs fs' : FS) : Prop :=
  fs'.noAccess = fs.noAccess ∧
  ∀ q, fs'.node q = fs.node q ∨
    (fs.node q = none ∧ fs'.node q = some .dir ∧ D q) ∨
    (W q ∧ fs.node q ≠ some .dir ∧ ∃ c, fs'.node q = some (.file c))

/-- The directories an operation may create: the path of an `os.MkdirAll` and
the directories above it. -/
def Step.makes : Step → Path → Prop
  | .mkdirAll name, q => q.rooted = (resolve name).rooted ∧ q.comps <+: (resolve name).comps
  | .write _ _, _ => False

/-- One string occurs inside another. -/
def Contains (s sub : String) : Prop := ∃ pre post : String, s = pre ++ sub ++ post

/-- A string of the form `YYYY-MM-DD`: four digits, a dash, two digits, a dash,
two digits. -/
def isISODate (s : String) : Bool :=
  match s.data with
  | [y1, y2, y3, y4, '-', m1, m2, '-', d1, d2] =>
    y1.isDigit && y2.isDigit && y3.isDigit && y4.isDigit &&
      m1.isDigit && m2.isDigit && d1.isDigit && d2.isDigit
  | _ => false

/-- Every write of a sequence of operations goes into the working directory, or
into a directory among `made`, or into one named by an `os.MkdirAll` earlier in
the sequence. -/
def parentsMade : List Path → List Step → Prop
  | _, [] => True
  | made, .mkdirAll d :: rest => parentsMade (resolve d :: made) rest
  | made, .write name _ :: rest =>
    ((resolve name).parent = Path.cwd ∨ (resolve name).parent ∈ made) ∧ parentsMade made rest

/-! ## The configuration file (`cmd/root.go`) -/

/-- What viper has been told about its configuration file: a file given by
name, or the directories to search, the type and the base name of the file,
and whether environment variables override the keys. -/
structure ViperState where
  configFile : String
  configPaths : List String
  configType : String
  configName : String
  automaticEnv : Bool
deriving DecidableEq, Repr

/-- The state of viper before any call: no file, no search path, and the base
name `config`. -/
def ViperState.new : ViperState :=
  { configFile := "", configPaths := [], configType := "", configName := "config",
    automaticEnv := false }

/-- The settings part of the function `initConfig`, up to and including
`viper.AutomaticEnv()`: with `--config` given that file is set; otherwise the
home directory is the search path, the type is `yaml` and the base name is
`.cc`.  An error stands for `cobra.CheckErr` ending the process when the home
directory cannot be found. -/
def initConfig (cfgFile : String) (userHomeDir : Except Errno String) :
    Except GoError ViperState :=
  if cfgFile ≠ "" then
    .ok { ViperState.new with configFile := cfgFile, automaticEnv := true }
  else
    match userHomeDir with
    | .error e => .error (.pathError "UserHomeDir" "" e)
    | .ok home =>
      .ok { ViperState.new with
            configPaths := [home], configType := "yaml", configName := ".cc",
            automaticEnv := true }

/-- The file extensions viper knows (`viper.SupportedExts`). -/
def viperSupportedExts : List String :=
  ["json", "toml", "yaml", "yml", "properties", "props", "prop", "hcl", "tfvars", "dotenv",
    "env", "ini"]

/-- The path names viper tries in one directory, in order: the base name with
each known extension, then, when a type is set, the bare base name. -/
def viperSearchNames (v : ViperState) (dir : String) : List String :=
  viperSupportedExts.map (fun ext => filepathJoin [dir, v.configName ++ "." ++ ext]) ++
    (if v.configType ≠ "" then [filepathJoin [dir, v.configName]] else [])

/-- The path names `viper.ReadInConfig` may read: the file given by name, or the
names tried in each search directory. -/
def viperCandidates (v : ViperState) : List String :=
  if v.configFile ≠ "" then [v.configFile]
  else v.configPaths.flatMap (viperSearchNames v)

/-- The existence test of viper: the path can be examined and is no directory. -/
def viperExists (fs : FS) (name : String) : Bool :=
  match osStat fs name with
  | .ok (.file _) => true
  | _ => false

/-- The file `viper.ReadInConfig` reads, if any: the file given by name, or the
first candidate that exists. -/
def viperConfigFileUsed (v : ViperState) (fs : FS) : Option String :=
  if v.configFile ≠ "" then some v.configFile
  else (viperCandidates v).find? (viperExists fs)

/-- A home directory `/home/u` that holds `.cc-init.yaml`. -/
def fsHomeCcInit : FS :=
  { node := fun p =>
      if p = ⟨true, []⟩ ∨ p = ⟨true, ["home"]⟩ ∨ p = ⟨true, ["home", "u"]⟩ then some .dir
      else if p = ⟨true, ["home", "u", ".cc-init.yaml"]⟩ then some (.file "dry-run: true\n")
      else none
    noAccess := fun _ => false }

/-- A home directory `/home/u` that holds `.cc.yaml`. -/
def fsHomeCc : FS :=
  { node := fun p =>
      if p = ⟨true, []⟩ ∨ p = ⟨true, ["home"]⟩ ∨ p = ⟨true, ["home", "u"]⟩ then some .dir
      else if p = ⟨true, ["home", "u", ".cc.yaml"]⟩ then some (.file "dry-run: true\n")
      else none
    noAccess := fun _ => false }

/-- The number a decimal digit stands for. -/
def digitValue (c : Char) : Nat := c.toNat - 48

/-- The date a string of the form `YYYY-MM-DD` denotes: the year, the month and
the day its digits spell in decimal. -/
def readISODate (s : String) : Option Date :=
  match s.data with
  | [y1, y2, y3, y4, '-', m1, m2, '-', d1, d2] =>
    if y1.isDigit && y2.isDigit && y3.isDigit && y4.isDigit &&
        m1.isDigit && m2.isDigit && d1.isDigit && d2.isDigit then
      some
        { year := 1000 * digitValue y1 + 100 * digitValue y2 + 10 * digitValue y3 + digitValue y4
          month := 10 * digitValue m1 + digitValue m2
          day := 10 * digitValue d1 + digitValue d2 }
    else none
  | _ => none

/-! ## Several names for one file -/

/-- A filesystem in which a path may reach the node kept under another path:
through a symbolic link, through a second hard link to the same file, or, where
names are compared without regard to case, through a name that differs in case
only.  The field `store` holds every node under one path, and `canon` gives for
each path the path of the store that it reaches (itself, when it is no alias).
A symbolic link that points nowhere is not represented. -/
structure AliasedFS where
  store : FS
  canon : Path → Path

/-- The path of the store that a path reaches: the cleaned path of the name of
its canonical path. -/
def AliasedFS.reach (a : AliasedFS) (p : Path) : Path := resolve (a.canon p).name

/-- An operation as the operating system carries it out where names may be
aliases: on the store, at the path that its path name reaches. -/
def Step.redirect (canon : Path → Path) : Step → Step
  | .mkdirAll name => .mkdirAll (canon (resolve name)).name
  | .write name content => .write (canon (resolve name)).name content

/-- The method `InitializeProject` on a filesystem with aliases: its operations
in order (`InitializeProject_sim`), each carried out at the path its path name
reaches. -/
def InitializeProjectAliased (config : ProjectConfig) (now : Date) (a : AliasedFS) : Outcome :=
  runSteps ((initSteps config now).map (Step.redirect a.canon)) a.store

/-- A working directory that holds `notes.txt` and a symbolic link `Makefile`
that points to it. -/
def fsMakefileLink : AliasedFS :=
  { store :=
      { node := fun p =>
          if p = Path.cwd then some .dir
          else if p = ⟨false, ["notes.txt"]⟩ then some (.file "remember the milk\n")
          else none
        noAccess := fun _ => false }
    canon := fun p => if p = ⟨false, ["Makefile"]⟩ then ⟨false, ["notes.txt"]⟩ else p }

/-- A configuration without GitHub username. -/
def plainConfig : ProjectConfig :=
  { Name := "proj"
    «Type» := ""
    Description := "A project"
    GitHubUsername := ""
    Overwrite := false
    DryRun := false
    Verbose := false
    Integration := true }

/-! ## Basic facts about filesystems and outcomes -/

theorem FS.eq_of_fields {a b : FS} (h1 : ∀ p, a.node p = b.node p)
    (h2 : ∀ p, a.noAccess p = b.noAccess p) : a = b := by
  cases a; cases b
  simp only [FS.mk.injEq]
  exact ⟨funext h1, funext h2⟩

@[simp] theorem FS.set_node (fs : FS) (p q : Path) (n : Node) :
    (fs.set p n).node q = if q = p then some n else fs.node q := rfl

@[simp] theorem FS.set_noAccess (fs : FS) (p : Path) (n : Node) :
    (fs.set p n).noAccess = fs.noAccess := rfl

theorem FS.set_set (fs : FS) (p : Path) (a b : Node) : (fs.set p a).set p b = fs.set p b := by
  apply FS.eq_of_fields
  · intro q; by_cases h : q = p <;> simp [h]
  · intro q; rfl

theorem FS.set_same {fs : FS} {p : Path} {n : Node} (h : fs.node p = some n) :
    fs.set p n = fs := by
  apply FS.eq_of_fields
  · intro q; by_cases hq : q = p
    · subst hq; simp [h]
    · simp [hq]
  · intro q; rfl

theorem String.nil_append (s : String) : "" ++ s = s := by
  apply String.ext; simp

theorem Outcome.andThen_ok {r : Outcome} (k : FS → Outcome) (h : r.err = none) :
    r.andThen k = k r.fs := by
  simp [Outcome.andThen, h]

theorem Outcome.andThen_err {r : Outcome} (k : FS → Outcome) (h : r.err ≠ none) :
    r.andThen k = r := by
  cases he : r.err with
  | none => exact absurd he h
  | some e => simp [Outcome.andThen, he]

@[simp] theorem Outcome.andThen_mk_none (fs : FS) (k : FS → Outcome) :
    (Outcome.mk fs none).andThen k = k fs := rfl

@[simp] theorem Outcome.andThen_mk_some (fs : FS) (e : GoError) (k : FS → Outcome) :
    (Outcome.mk fs (some e)).andThen k = ⟨fs, some e⟩ := rfl

@[simp] theorem Outcome.wrap_fs (r : Outcome) (msg : String) : (r.wrap msg).fs = r.fs := by
  unfold Outcome.wrap; split <;> rfl

@[simp] theorem Outcome.wrap_err_none (r : Outcome) (msg : String) :
    (r.wrap msg).err = none ↔ r.err = none := by
  unfold Outcome.wrap; split <;> simp_all

theorem Outcome.sim_refl (r : Outcome) : r.sim r := ⟨rfl, Iff.rfl⟩

theorem Outcome.sim_symm {r s : Outcome} (h : r.sim s) : s.sim r := ⟨h.1.symm, h.2.symm⟩

theorem Outcome.sim_trans {r s t : Outcome} (h1 : r.sim s) (h2 : s.sim t) : r.sim t :=
  ⟨h1.1.trans h2.1, h1.2.trans h2.2⟩

theorem Outcome.sim_wrap (r : Outcome) (msg : String) : (r.wrap msg).sim r :=
  ⟨Outcome.wrap_fs r msg, Outcome.wrap_err_none r msg⟩

theorem Outcome.sim_andThen {r s : Outcome} {k l : FS → Outcome} (h : r.sim s)
    (hk : ∀ fs, (k fs).sim (l fs)) : (r.andThen k).sim (s.andThen l) := by
  by_cases hr : r.err = none
  · have hs : s.err = none := h.2.1 hr
    rw [Outcome.andThen_ok k hr, Outcome.andThen_ok l hs, h.1]
    exact hk s.fs
  · have hs : s.err ≠ none := fun e => hr (h.2.2 e)
    rw [Outcome.andThen_err k hr, Outcome.andThen_err l hs]
    exact h

theorem Outcome.andThen_err_none {r : Outcome} {k : FS → Outcome}
    (h : (r.andThen k).err = none) : r.err = none ∧ (k r.fs).err = none := by
  by_cases hr : r.err = none
  · rw [Outcome.andThen_ok k hr] at h; exact ⟨hr, h⟩
  · rw [Outcome.andThen_err k hr] at h; exact absurd h hr

/-! ## Facts about the operating-system calls -/

theorem statPath_dir_iff (fs : FS) (p : Path) :
    statPath fs p = .ok .dir ↔ fs.noAccess p = false ∧ fs.node p = some .dir := by
  unfold statPath
  cases ha : fs.noAccess p <;> cases hn : fs.node p <;> simp

theorem mkdirPath_ok {fs fs2 : FS} {p : Path} (h : mkdirPath fs p = .ok fs2) :
    fs2 = fs.set p .dir ∧ fs.node p = none ∧ fs.noAccess p = false := by
  unfold mkdirPath at h
  cases ha : fs.noAccess p <;> simp [ha] at h
  cases hn : fs.node p <;> simp [hn] at h
  cases hp : fs.node p.parent with
  | none => simp [hp] at h
  | some n => cases n <;> simp [hp] at h; exact ⟨h.symm, rfl, rfl⟩

theorem Evolves.refl (W D : Path → Prop) (fs : FS) : Evolves W D fs fs :=
  ⟨rfl, fun _ => Or.inl rfl⟩

theorem Evolves.mono {W D W' D' : Path → Prop} {fs fs' : FS} (h : Evolves W D fs fs')
    (hW : ∀ q, W q → W' q) (hD : ∀ q, D q → D' q) : Evolves W' D' fs fs' := by
  refine ⟨h.1, fun q => ?_⟩
  rcases h.2 q with h1 | ⟨h1, h2, h3⟩ | ⟨h1, h2, h3⟩
  · exact Or.inl h1
  · exact Or.inr (Or.inl ⟨h1, h2, hD q h3⟩)
  · exact Or.inr (Or.inr ⟨hW q h1, h2, h3⟩)

theorem Evolves.trans {W D : Path → Prop} {fs fs1 fs2 : FS} (h1 : Evolves W D fs fs1)
    (h2 : Evolves W D fs1 fs2) : Evolves W D fs fs2 := by
  refine ⟨h2.1.trans h1.1, fun q => ?_⟩
  rcases h2.2 q with e2 | ⟨n1, d2, hD⟩ | ⟨hW, nd1, c, f2⟩
  · rw [e2]; exact h1.2 q
  · rcases h1.2 q with e1 | ⟨_, d1, _⟩ | ⟨_, _, c, f1⟩
    · exact Or.inr (Or.inl ⟨e1 ▸ n1, d2, hD⟩)
    · rw [n1] at d1; cases d1
    · rw [n1] at f1; cases f1
  · rcases h1.2 q with e1 | ⟨_, d1, _⟩ | ⟨_, nd, _⟩
    · exact Or.inr (Or.inr ⟨hW, e1 ▸ nd1, c, f2⟩)
    · exact absurd d1 nd1
    · exact Or.inr (Or.inr ⟨hW, nd, c, f2⟩)

theorem Evolves.set_dir {W D : Path → Prop} {fs : FS} {p : Path} (hn : fs.node p = none)
    (hD : D p) : Evolves W D fs (fs.set p .dir) := by
  refine ⟨rfl, fun q => ?_⟩
  by_cases hq : q = p
  · subst hq; exact Or.inr (Or.inl ⟨hn, by simp, hD⟩)
  · exact Or.inl (by simp [hq])

theorem Evolves.set_file {W D : Path → Prop} {fs : FS} {p : Path} (c : String)
    (hn : fs.node p ≠ some .dir) (hW : W p) : Evolves W D fs (fs.set p (.file c)) := by
  refine ⟨rfl, fun q => ?_⟩
  by_cases hq : q = p
  · subst hq; exact Or.inr (Or.inr ⟨hW, hn, c, by simp⟩)
  · exact Or.inl (by simp [hq])

theorem mkdirAllAt_evolves {W D : Path → Prop} (name : String) {p : Path} {fs : FS}
    {parent : Outcome} (hp : Evolves W D fs parent.fs) (hD : D p) :
    Evolves W D fs (mkdirAllAt name p fs parent).fs := by
  unfold mkdirAllAt
  split
  · exact Evolves.refl W D fs
  · exact Evolves.refl W D fs
  · by_cases he : parent.err = none
    · rw [Outcome.andThen_ok _ he]
      split
      · rename_i fs2 hm
        obtain ⟨h1, h2, _⟩ := mkdirPath_ok hm
        subst h1
        exact hp.trans (Evolves.set_dir h2 hD)
      · split <;> exact hp
    · rw [Outcome.andThen_err _ he]; exact hp

theorem mkdirAllAux_evolves (W : Path → Prop) (name : String) (rooted : Bool) :
    ∀ (rev : List String) (fs : FS),
      Evolves W (fun q => q.rooted = rooted ∧ q.comps <+: rev.reverse) fs
        (mkdirAllAux name rooted rev fs).fs
  | [], fs => by
    rw [mkdirAllAux]
    exact mkdirAllAt_evolves name (Evolves.refl _ _ fs) ⟨rfl, List.prefix_refl _⟩
  | c :: rest, fs => by
    rw [mkdirAllAux]
    refine mkdirAllAt_evolves name ?_ ⟨rfl, List.prefix_refl _⟩
    split
    · exact Evolves.refl _ _ fs
    · refine (mkdirAllAux_evolves W name rooted rest fs).mono (fun _ h => h) ?_
      intro q hq
      refine ⟨hq.1, hq.2.trans ?_⟩
      rw [List.reverse_cons]
      exact List.prefix_append _ _

theorem mkdirAllAt_ok {name : String} {p : Path} {fs : FS} {parent : Outcome}
    (h : (mkdirAllAt name p fs parent).err = none) :
    statPath (mkdirAllAt name p fs parent).fs p = .ok .dir := by
  unfold mkdirAllAt at h ⊢
  split
  · assumption
  · rename_i hs; simp [hs] at h
  · rename_i hs
    simp only [hs] at h
    by_cases he : parent.err = none
    · rw [Outcome.andThen_ok _ he] at h ⊢
      split
      · rename_i fs2 hm
        obtain ⟨h1, _, h3⟩ := mkdirPath_ok hm
        subst h1
        rw [statPath_dir_iff]; simp [h3]
      · rename_i e hm
        simp only [hm] at h
        split
        · assumption
        · rename_i hs2
          split at h
          · rename_i hs3; exact absurd hs3 (by simpa using hs2)
          · simp at h
    · rw [Outcome.andThen_err _ he] at h; exact absurd h he

theorem osMkdirAll_ok {name : String} {fs : FS} (h : (osMkdirAll name fs).err = none) :
    name ≠ "" ∧ statPath (osMkdirAll name fs).fs (resolve name) = .ok .dir := by
  unfold osMkdirAll at h ⊢
  by_cases hn : name = ""
  · simp [hn] at h
  · simp only [hn, if_false] at h ⊢
    refine ⟨hn, ?_⟩
    cases hr : (resolve name).comps.reverse with
    | nil =>
      rw [hr] at h
      rw [mkdirAllAux] at h ⊢
      have := mkdirAllAt_ok h
      have hc : (resolve name).comps = [] := by simpa using hr
      have hp : resolve name = ⟨(resolve name).rooted, []⟩ := by
        cases hx : resolve name; simp [hx] at hc; simp [hc]
      rw [hp]; exact this
    | cons c rest =>
      rw [hr] at h
      rw [mkdirAllAux] at h ⊢
      have := mkdirAllAt_ok h
      have hc : (resolve name).comps = (c :: rest).reverse := by
        rw [← hr, List.reverse_reverse]
      have hp : resolve name = ⟨(resolve name).rooted, (c :: rest).reverse⟩ := by
        cases hx : resolve name; simp [hx] at hc; simp [hc]
      rw [hp]; exact this

theorem osMkdirAll_of_dir {name : String} {fs : FS} (hn : name ≠ "")
    (h : statPath fs (resolve name) = .ok .dir) : osMkdirAll name fs = ⟨fs, none⟩ := by
  unfold osMkdirAll
  simp only [hn, if_false]
  have hp : (⟨(resolve name).rooted, (resolve name).comps.reverse.reverse⟩ : Path)
      = resolve name := by simp
  cases hr : (resolve name).comps.reverse with
  | nil =>
    rw [hr] at hp
    rw [mkdirAllAux, mkdirAllAt]
    simp only [List.reverse_nil] at hp
    rw [hp, h]
  | cons c rest =>
    rw [hr] at hp
    rw [mkdirAllAux, mkdirAllAt, hp, h]

theorem osMkdirAll_evolves (W : Path → Prop) (name : String) (fs : FS) :
    Evolves W (Step.makes (.mkdirAll name)) fs (osMkdirAll name fs).fs := by
  unfold osMkdirAll
  by_cases hn : name = ""
  · simp only [hn, if_true]; exact Evolves.refl _ _ fs
  · simp only [hn, if_false]
    have := mkdirAllAux_evolves W name (resolve name).rooted (resolve name).comps.reverse fs
    simpa [Step.makes] using this

theorem fileWrite_of_file {name data c : String} {fs : FS}
    (h : fs.node (resolve name) = some (.file c)) :
    fileWrite name data fs = ⟨fs.set (resolve name) (.file (c ++ data)), none⟩ := by
  simp [fileWrite, h]

/-- A write of a whole file either fails and leaves the filesystem as it was,
or succeeds on an accessible path that is no directory and sets its content. -/
theorem writeFile_cases (name content : String) (fs : FS) :
    ((writeFile name content fs).fs = fs ∧ (writeFile name content fs).err ≠ none) ∨
    (name ≠ "" ∧ fs.noAccess (resolve name) = false ∧ fs.node (resolve name) ≠ some .dir ∧
      writeFile name content fs = ⟨fs.set (resolve name) (.file content), none⟩) := by
  by_cases hn : name = ""
  · left; simp [writeFile, osWriteFile, openTrunc, hn]
  · cases ha : fs.noAccess (resolve name)
    · cases hnode : fs.node (resolve name) with
      | none =>
        cases hp : fs.node (resolve name).parent with
        | none => left; simp [writeFile, osWriteFile, openTrunc, hn, ha, hnode, hp]
        | some n =>
          cases n with
          | file c => left; simp [writeFile, osWriteFile, openTrunc, hn, ha, hnode, hp]
          | dir =>
            refine Or.inr ⟨hn, rfl, by simp, ?_⟩
            simp [writeFile, osWriteFile, openTrunc, hn, ha, hnode, hp, fileWrite, FS.set_set,
              String.nil_append]
      | some n =>
        cases n with
        | dir => left; simp [writeFile, osWriteFile, openTrunc, hn, ha, hnode]
        | file c =>
          refine Or.inr ⟨hn, rfl, by simp, ?_⟩
          simp [writeFile, osWriteFile, openTrunc, hn, ha, hnode, fileWrite, FS.set_set,
            String.nil_append]
    · left; simp [writeFile, osWriteFile, openTrunc, hn, ha]

theorem writeFile_of_file {name content c : String} {fs : FS} (hn : name ≠ "")
    (ha : fs.noAccess (resolve name) = false) (h : fs.node (resolve name) = some (.file c)) :
    writeFile name content fs = ⟨fs.set (resolve name) (.file content), none⟩ := by
  unfold writeFile osWriteFile openTrunc
  simp [hn, ha, h, fileWrite, FS.set_set, String.nil_append]

theorem writeFile_of_missing {name content : String} {fs : FS} (hn : name ≠ "")
    (ha : fs.noAccess (resolve name) = false) (h : fs.node (resolve name) = none)
    (hp : fs.node (resolve name).parent = some .dir) :
    writeFile name content fs = ⟨fs.set (resolve name) (.file content), none⟩ := by
  unfold writeFile osWriteFile openTrunc
  simp [hn, ha, h, hp, fileWrite, FS.set_set, String.nil_append]

/-! ## Facts about single operations and sequences of operations -/

theorem Step.run_evolves (s : Step) (fs : FS) :
    Evolves (fun q => s.target = some q) s.makes fs (s.run fs).fs := by
  cases s with
  | mkdirAll name => exact osMkdirAll_evolves _ name fs
  | write name content =>
    simp only [Step.run]
    rcases writeFile_cases name content fs with ⟨h, _⟩ | ⟨_, _, hd, h⟩
    · rw [h]; exact Evolves.refl _ _ fs
    · rw [h]; exact Evolves.set_file content hd rfl

theorem runSteps_append (a b : List Step) (fs : FS) :
    runSteps (a ++ b) fs = (runSteps a fs).andThen (runSteps b) := by
  induction a generalizing fs with
  | nil => simp [runSteps]
  | cons s rest ih =>
    show (s.run fs).andThen (runSteps (rest ++ b))
      = ((s.run fs).andThen (runSteps rest)).andThen (runSteps b)
    by_cases h : (s.run fs).err = none
    · rw [Outcome.andThen_ok _ h, Outcome.andThen_ok _ h, ih]
    · rw [Outcome.andThen_err _ h, Outcome.andThen_err _ h, Outcome.andThen_err _ h]

theorem runSteps_evolves (steps : List Step) (fs : FS) :
    Evolves (fun q => q ∈ writeTargets steps) (fun q => ∃ s ∈ steps, s.makes q) fs
      (runSteps steps fs).fs := by
  induction steps generalizing fs with
  | nil => exact Evolves.refl _ _ fs
  | cons s rest ih =>
    have h1 : Evolves (fun q => q ∈ writeTargets (s :: rest))
        (fun q => ∃ t ∈ s :: rest, t.makes q) fs (s.run fs).fs := by
      refine (s.run_evolves fs).mono ?_ ?_
      · intro q hq
        simp only [writeTargets, List.filterMap_cons, hq]
        exact List.mem_cons_self _ _
      · intro q hq; exact ⟨s, List.mem_cons_self _ _, hq⟩
    simp only [runSteps]
    by_cases h : (s.run fs).err = none
    · rw [Outcome.andThen_ok _ h]
      refine h1.trans ((ih (s.run fs).fs).mono ?_ ?_)
      · intro q hq
        simp only [writeTargets, List.filterMap_cons] at hq ⊢
        split
        · exact hq
        · exact List.mem_cons_of_mem _ hq
      · rintro q ⟨t, ht, hq⟩; exact ⟨t, List.mem_cons_of_mem _ ht, hq⟩
    · rw [Outcome.andThen_err _ h]; exact h1

theorem Settled.run {fs : FS} {s : Step} (h : Settled fs s) : s.run fs = ⟨fs, none⟩ := by
  cases s with
  | mkdirAll name => exact osMkdirAll_of_dir h.1 h.2
  | write name content =>
    obtain ⟨hn, ha, hf⟩ := h
    simp only [Step.run]
    rw [writeFile_of_file hn ha hf, FS.set_same hf]

theorem Step.run_settles {fs : FS} {s : Step} (h : (s.run fs).err = none) :
    Settled (s.run fs).fs s := by
  cases s with
  | mkdirAll name => exact osMkdirAll_ok h
  | write name content =>
    simp only [Step.run] at h ⊢
    rcases writeFile_cases name content fs with ⟨_, he⟩ | ⟨hn, ha, _, hw⟩
    · exact absurd h he
    · rw [hw]; exact ⟨hn, ha, by simp⟩

theorem Settled.evolves {W D : Path → Prop} {fs fs' : FS} {s : Step} (h : Settled fs s)
    (he : Evolves W D fs fs') (hW : ∀ q, s.target = some q → ¬ W q) : Settled fs' s := by
  cases s with
  | mkdirAll name =>
    obtain ⟨hn, hs⟩ := h
    rw [statPath_dir_iff] at hs
    refine ⟨hn, (statPath_dir_iff _ _).2 ⟨by rw [he.1]; exact hs.1, ?_⟩⟩
    rcases he.2 (resolve name) with e | ⟨n, _, _⟩ | ⟨_, nd, _⟩
    · rw [e]; exact hs.2
    · rw [hs.2] at n; cases n
    · exact absurd hs.2 nd
  | write name content =>
    obtain ⟨hn, ha, hf⟩ := h
    refine ⟨hn, by rw [he.1]; exact ha, ?_⟩
    rcases he.2 (resolve name) with e | ⟨n, _, _⟩ | ⟨w, _, _⟩
    · rw [e]; exact hf
    · rw [hf] at n; cases n
    · exact absurd w (hW _ rfl)

theorem runSteps_of_settled {fs : FS} {steps : List Step} (h : ∀ s ∈ steps, Settled fs s) :
    runSteps steps fs = ⟨fs, none⟩ := by
  induction steps with
  | nil => rfl
  | cons s rest ih =>
    simp only [runSteps]
    rw [(h s (List.mem_cons_self _ _)).run]
    exact ih (fun t ht => h t (List.mem_cons_of_mem _ ht))

/-- After a run of operations with pairwise different write paths, up to and
including a last operation that may have failed, the effect of every operation
that succeeded is in place. -/
theorem runSteps_settles {steps : List Step} (hd : (writeTargets steps).Nodup) :
    ∀ {fs : FS}, (runSteps steps fs).err = none →
      ∀ s ∈ steps, Settled (runSteps steps fs).fs s := by
  induction steps with
  | nil => intro fs _ s hs; cases hs
  | cons t rest ih =>
    intro fs h s hs
    simp only [runSteps] at h ⊢
    obtain ⟨h1, h2⟩ := Outcome.andThen_err_none h
    rw [Outcome.andThen_ok _ h1]
    have hd' : (writeTargets rest).Nodup ∧ ∀ q, t.target = some q → q ∉ writeTargets rest := by
      simp only [writeTargets, List.filterMap_cons] at hd
      cases ht : t.target with
      | none => rw [ht] at hd; exact ⟨hd, fun q hq => by cases hq⟩
      | some p =>
        rw [ht] at hd
        have := List.nodup_cons.1 hd
        refine ⟨this.2, fun q hq => ?_⟩
        cases hq; exact this.1
    rcases List.mem_cons.1 hs with rfl | hs
    · exact (Step.run_settles h1).evolves (runSteps_evolves rest _) hd'.2
    · exact ih hd'.1 h2 s hs

/-! ## The path names of the generator, evaluated -/

@[simp] theorem join_claude : filepathJoin [".", ".claude"] = ".claude" := by decide
@[simp] theorem join_github : filepathJoin [".", ".github"] = ".github" := by decide
@[simp] theorem join_workflows1 : filepathJoin [".", ".github/workflows"] = ".github/workflows" := by
  decide
@[simp] theorem join_workflows : filepathJoin [".", ".github", "workflows"] = ".github/workflows" := by
  decide
@[simp] theorem join_claudeMD : filepathJoin [".", "CLAUDE.md"] = "CLAUDE.md" := by decide
@[simp] theorem join_readme : filepathJoin [".claude", "README.md"] = ".claude/README.md" := by
  decide
@[simp] theorem join_gitignore : filepathJoin [".", ".gitignore"] = ".gitignore" := by decide
@[simp] theorem join_makefile : filepathJoin [".", "Makefile"] = "Makefile" := by decide
@[simp] theorem join_precommit :
    filepathJoin [".", ".pre-commit-config.yaml"] = ".pre-commit-config.yaml" := by decide
@[simp] theorem join_ci :
    filepathJoin [".github/workflows", "ci.yml"] = ".github/workflows/ci.yml" := by decide
@[simp] theorem join_issue :
    filepathJoin [".", ".github", "ISSUE_TEMPLATE"] = ".github/ISSUE_TEMPLATE" := by decide
@[simp] theorem join_bug :
    filepathJoin [".github/ISSUE_TEMPLATE", "bug_report.md"]
      = ".github/ISSUE_TEMPLATE/bug_report.md" := by decide
@[simp] theorem join_feature :
    filepathJoin [".github/ISSUE_TEMPLATE", "feature_request.md"]
      = ".github/ISSUE_TEMPLATE/feature_request.md" := by decide
@[simp] theorem join_pr :
    filepathJoin [".", ".github", "pull_request_template.md"]
      = ".github/pull_request_template.md" := by decide
@[simp] theorem join_contributing : filepathJoin [".", "CONTRIBUTING.md"] = "CONTRIBUTING.md" := by
  decide
@[simp] theorem join_license : filepathJoin [".", "LICENSE"] = "LICENSE" := by decide
@[simp] theorem join_claude_slash : filepathJoin [".", ".claude/"] = ".claude" := by decide

@[simp] theorem resolve_claude : resolve ".claude" = ⟨false, [".claude"]⟩ := by decide
@[simp] theorem resolve_github : resolve ".github" = ⟨false, [".github"]⟩ := by decide
@[simp] theorem resolve_workflows :
    resolve ".github/workflows" = ⟨false, [".github", "workflows"]⟩ := by decide
@[simp] theorem resolve_issue :
    resolve ".github/ISSUE_TEMPLATE" = ⟨false, [".github", "ISSUE_TEMPLATE"]⟩ := by decide
@[simp] theorem resolve_claudeMD : resolve "CLAUDE.md" = ⟨false, ["CLAUDE.md"]⟩ := by decide
@[simp] theorem resolve_readme :
    resolve ".claude/README.md" = ⟨false, [".claude", "README.md"]⟩ := by decide
@[simp] theorem resolve_gitignore : resolve ".gitignore" = ⟨false, [".gitignore"]⟩ := by decide
@[simp] theorem resolve_makefile : resolve "Makefile" = ⟨false, ["Makefile"]⟩ := by decide
@[simp] theorem resolve_precommit :
    resolve ".pre-commit-config.yaml" = ⟨false, [".pre-commit-config.yaml"]⟩ := by decide
@[simp] theorem resolve_ci :
    resolve ".github/workflows/ci.yml" = ⟨false, [".github", "workflows", "ci.yml"]⟩ := by decide
@[simp] theorem resolve_bug :
    resolve ".github/ISSUE_TEMPLATE/bug_report.md"
      = ⟨false, [".github", "ISSUE_TEMPLATE", "bug_report.md"]⟩ := by decide
@[simp] theorem resolve_feature :
    resolve ".github/ISSUE_TEMPLATE/feature_request.md"
      = ⟨false, [".github", "ISSUE_TEMPLATE", "feature_request.md"]⟩ := by decide
@[simp] theorem resolve_pr :
    resolve ".github/pull_request_template.md"
      = ⟨false, [".github", "pull_request_template.md"]⟩ := by decide
@[simp] theorem resolve_contributing :
    resolve "CONTRIBUTING.md" = ⟨false, ["CONTRIBUTING.md"]⟩ := by decide
@[simp] theorem resolve_license : resolve "LICENSE" = ⟨false, ["LICENSE"]⟩ := by decide

/-! ## The template of `CLAUDE.md` -/

theorem templateParse_claudeMD : templateParse claudeMDTemplate = .ok claudeMDNodes := by
  have h : (templateParse claudeMDTemplate).toOption = some claudeMDNodes := by decide!
  cases hp : templateParse claudeMDTemplate with
  | error e => rw [hp] at h; cases h
  | ok t => rw [hp] at h; simp [Except.toOption] at h; rw [h]

theorem claudeMDNodes_eq :
    claudeMDNodes =
      [.text "# ", .field "Name", .text "\n\n", .field "Description", .text claudeMDBody,
        .field "Date", .text "*\n"] := by decide!

theorem claudeMDBody_eq :
    claudeMDBody =
      String.mk (claudeMDBody.data.take (claudeMDBody.data.length - 20))
        ++ "*Generated by cc on " := by decide!

theorem claudeMDData_Name (config : ProjectConfig) (now : Date) :
    claudeMDData config now "Name" = some config.Name := rfl

theorem claudeMDData_Description (config : ProjectConfig) (now : Date) :
    claudeMDData config now "Description" = some config.Description := rfl

theorem claudeMDData_Date (config : ProjectConfig) (now : Date) :
    claudeMDData config now "Date" = some now.format := rfl

theorem renderNodes_claudeMD_eq (config : ProjectConfig) (now : Date) :
    renderNodes (claudeMDData config now) claudeMDNodes =
      some ("# " ++ (config.Name ++ ("\n\n" ++ (config.Description ++ (claudeMDBody ++
        (now.format ++ ("*\n" ++ ""))))))) := by
  rw [claudeMDNodes_eq]
  simp only [renderNodes, claudeMDData_Name, claudeMDData_Description, claudeMDData_Date,
    Option.map_some']

theorem claudeMDText_eq (config : ProjectConfig) (now : Date) :
    claudeMDText config now =
      "# " ++ (config.Name ++ ("\n\n" ++ (config.Description ++ (claudeMDBody ++
        (now.format ++ "*\n"))))) := by
  unfold claudeMDText
  rw [templateParse_claudeMD]
  simp only [renderNodes_claudeMD_eq, Option.getD_some, String.append_empty]

theorem renderNodes_claudeMD (config : ProjectConfig) (now : Date) :
    renderNodes (claudeMDData config now) claudeMDNodes = some (claudeMDText config now) := by
  rw [claudeMDText_eq, renderNodes_claudeMD_eq, String.append_empty]

theorem templateExecute_render (file : String) (data : String → Option String) :
    ∀ (nodes : List TNode) (fs : FS) (c0 txt : String),
      renderNodes data nodes = some txt → fs.node (resolve file) = some (.file c0) →
      templateExecute file data nodes fs = ⟨fs.set (resolve file) (.file (c0 ++ txt)), none⟩
  | [], fs, c0, txt, hr, hf => by
    simp only [renderNodes, Option.some.injEq] at hr
    subst hr
    rw [templateExecute, String.append_empty, FS.set_same hf]
  | .text s :: rest, fs, c0, txt, hr, hf => by
    simp only [renderNodes, Option.map_eq_some'] at hr
    obtain ⟨t, ht, rfl⟩ := hr
    rw [templateExecute, fileWrite_of_file hf, Outcome.andThen_mk_none,
      templateExecute_render file data rest _ (c0 ++ s) t ht (by simp), FS.set_set,
      String.append_assoc]
  | .field f :: rest, fs, c0, txt, hr, hf => by
    cases hd : data f with
    | none => simp [renderNodes, hd] at hr
    | some v =>
      simp only [renderNodes, hd, Option.map_eq_some'] at hr
      obtain ⟨t, ht, rfl⟩ := hr
      rw [templateExecute]
      simp only [hd]
      rw [fileWrite_of_file hf, Outcome.andThen_mk_none,
        templateExecute_render file data rest _ (c0 ++ v) t ht (by simp), FS.set_set,
        String.append_assoc]

theorem openTrunc_cases (name : String) (fs : FS) :
    ((openTrunc name fs).fs = fs ∧ (openTrunc name fs).err ≠ none) ∨
    openTrunc name fs = ⟨fs.set (resolve name) (.file ""), none⟩ := by
  unfold openTrunc
  by_cases hn : name = ""
  · simp [hn]
  · cases ha : fs.noAccess (resolve name)
    · cases hnode : fs.node (resolve name) with
      | none =>
        cases hp : fs.node (resolve name).parent with
        | none => simp [hn, ha, hnode, hp]
        | some n => cases n <;> simp [hn, ha, hnode, hp]
      | some n => cases n <;> simp [hn, ha, hnode]
    · simp [hn, ha]

/-- The method `generateClaudeMD` amounts to writing the rendered text. -/
theorem generateClaudeMD_sim (projectPath : String) (config : ProjectConfig) (now : Date)
    (fs : FS) :
    (generateClaudeMD projectPath config now fs).sim
      (writeFile (filepathJoin [projectPath, "CLAUDE.md"]) (claudeMDText config now) fs) := by
  unfold generateClaudeMD
  rw [templateParse_claudeMD]
  simp only [writeFile, osWriteFile, osCreate]
  rcases openTrunc_cases (filepathJoin [projectPath, "CLAUDE.md"]) fs with ⟨h1, h2⟩ | h
  · rw [Outcome.andThen_err _ (by simpa using h2), Outcome.andThen_err _ h2]
    exact Outcome.sim_wrap _ _
  · rw [h]
    simp only [Outcome.wrap, Outcome.andThen_mk_none]
    rw [templateExecute_render _ _ _ _ "" _ (renderNodes_claudeMD config now) (by simp),
      fileWrite_of_file (c := "") (by simp)]
    exact Outcome.sim_refl _

/-! ## `InitializeProject` as a sequence of operations -/

theorem Outcome.andThen_assoc (r : Outcome) (k l : FS → Outcome) :
    (r.andThen k).andThen l = r.andThen (fun fs => (k fs).andThen l) := by
  by_cases h : r.err = none
  · rw [Outcome.andThen_ok _ h, Outcome.andThen_ok _ h]
  · rw [Outcome.andThen_err _ h, Outcome.andThen_err _ h, Outcome.andThen_err _ h]

theorem runSteps_cons (s : Step) (rest : List Step) (fs : FS) :
    runSteps (s :: rest) fs = (s.run fs).andThen (runSteps rest) := rfl

theorem runSteps_nil (fs : FS) : runSteps [] fs = ⟨fs, none⟩ := rfl

theorem Outcome.andThen_runSteps_nil (r : Outcome) : r.andThen (runSteps []) = r := by
  by_cases h : r.err = none
  · rw [Outcome.andThen_ok _ h, runSteps_nil]
    cases r; simp_all
  · rw [Outcome.andThen_err _ h]

theorem createClaudeStructure_sim (config : ProjectConfig) (fs : FS) :
    (createClaudeStructure "." config fs).sim
      (runSteps [.mkdirAll ".claude", .mkdirAll ".github", .mkdirAll ".github/workflows"] fs) := by
  simp only [createClaudeStructure, createDirs, runSteps_cons, Step.run, join_claude]
  refine Outcome.sim_andThen (Outcome.sim_wrap _ _) (fun fs1 => ?_)
  simp only [createDirs, runSteps_cons, Step.run, join_github]
  refine Outcome.sim_andThen (Outcome.sim_wrap _ _) (fun fs2 => ?_)
  simp only [createDirs, runSteps_cons, Step.run, join_workflows1]
  refine Outcome.sim_andThen (Outcome.sim_wrap _ _) (fun fs3 => ?_)
  exact Outcome.sim_refl _

theorem generateClaudeFiles_sim (config : ProjectConfig) (now : Date) (fs : FS) :
    (generateClaudeFiles "." config now fs).sim
      (runSteps [.write "CLAUDE.md" (claudeMDText config now), .mkdirAll ".claude",
        .write ".claude/README.md" claudeReadmeContent] fs) := by
  simp only [generateClaudeFiles, runSteps_cons, Step.run]
  refine Outcome.sim_andThen ?_ (fun fs1 => ?_)
  · simpa using generateClaudeMD_sim "." config now fs
  simp only [generateClaudeExamples, runSteps_cons, Step.run, join_claude, join_readme]
  refine Outcome.sim_andThen (Outcome.sim_wrap _ _) (fun fs2 => ?_)
  simp only [runSteps_cons, Step.run, Outcome.andThen_runSteps_nil]
  exact Outcome.sim_refl _

theorem generateDevelopmentFiles_sim (config : ProjectConfig) (fs : FS) :
    (generateDevelopmentFiles "." config fs).sim
      (runSteps [.write ".gitignore" gitIgnoreContent, .write "Makefile" (makefileContent config),
        .write ".pre-commit-config.yaml" preCommitContent, .mkdirAll ".github/workflows",
        .write ".github/workflows/ci.yml" workflowContent] fs) := by
  simp only [generateDevelopmentFiles, generateGitIgnore, runSteps_cons, Step.run, join_gitignore]
  refine Outcome.sim_andThen (Outcome.sim_refl _) (fun fs1 => ?_)
  simp only [generateGenericMakefile, runSteps_cons, Step.run, join_makefile]
  refine Outcome.sim_andThen (Outcome.sim_refl _) (fun fs2 => ?_)
  simp only [generatePreCommitConfig, runSteps_cons, Step.run, join_precommit]
  refine Outcome.sim_andThen (Outcome.sim_refl _) (fun fs3 => ?_)
  simp only [generateGenericGitHubWorkflow, runSteps_cons, Step.run, join_workflows, join_ci]
  refine Outcome.sim_andThen (Outcome.sim_wrap _ _) (fun fs4 => ?_)
  simp only [runSteps_cons, Step.run, Outcome.andThen_runSteps_nil]
  exact Outcome.sim_refl _

theorem generateGitHubIntegration_sim (config : ProjectConfig) (fs : FS) :
    (generateGitHubIntegration "." config fs).sim (runSteps (githubSteps config) fs) := by
  simp only [generateGitHubIntegration, githubSteps, runSteps_cons, Step.run, join_issue,
    join_bug, join_feature, join_pr, join_contributing, join_license]
  refine Outcome.sim_andThen (Outcome.sim_wrap _ _) (fun fs1 => ?_)
  simp only [runSteps_cons, Step.run]
  refine Outcome.sim_andThen (Outcome.sim_refl _) (fun fs2 => ?_)
  simp only [runSteps_cons, Step.run]
  refine Outcome.sim_andThen (Outcome.sim_refl _) (fun fs3 => ?_)
  simp only [runSteps_cons, Step.run]
  refine Outcome.sim_andThen (Outcome.sim_refl _) (fun fs4 => ?_)
  simp only [runSteps_cons, Step.run]
  refine Outcome.sim_andThen (Outcome.sim_refl _) (fun fs5 => ?_)
  simp only [runSteps_cons, Step.run, Outcome.andThen_runSteps_nil]
  exact Outcome.sim_refl _

/-- The method `InitializeProject` leaves the filesystem, and fails or not, as
its operations run in order do. -/
theorem InitializeProject_sim (config : ProjectConfig) (now : Date) (fs : FS) :
    (InitializeProject config now fs).sim (runSteps (initSteps config now) fs) := by
  have hsplit : initSteps config now =
      [.mkdirAll ".claude", .mkdirAll ".github", .mkdirAll ".github/workflows"] ++
      ([.write "CLAUDE.md" (claudeMDText config now), .mkdirAll ".claude",
        .write ".claude/README.md" claudeReadmeContent] ++
      ([.write ".gitignore" gitIgnoreContent, .write "Makefile" (makefileContent config),
        .write ".pre-commit-config.yaml" preCommitContent, .mkdirAll ".github/workflows",
        .write ".github/workflows/ci.yml" workflowContent] ++
      (if config.GitHubUsername ≠ "" then githubSteps config else []))) := by
    simp [initSteps, baseSteps]
  rw [hsplit, runSteps_append]
  unfold InitializeProject
  refine Outcome.sim_andThen
    (Outcome.sim_trans (Outcome.sim_wrap _ _) (createClaudeStructure_sim config fs)) (fun fs1 => ?_)
  rw [runSteps_append]
  refine Outcome.sim_andThen
    (Outcome.sim_trans (Outcome.sim_wrap _ _) (generateClaudeFiles_sim config now fs1)) (fun fs2 => ?_)
  rw [runSteps_append]
  refine Outcome.sim_andThen
    (Outcome.sim_trans (Outcome.sim_wrap _ _) (generateDevelopmentFiles_sim config fs2)) (fun fs3 => ?_)
  by_cases hu : config.GitHubUsername = ""
  · simp only [hu, ne_eq, not_true_eq_false, if_false, runSteps_nil]
    exact Outcome.sim_refl _
  · simp only [hu, ne_eq, not_false_eq_true, if_true]
    exact Outcome.sim_trans (Outcome.sim_wrap _ _) (generateGitHubIntegration_sim config fs3)

theorem writeTargets_initSteps (config : ProjectConfig) (now : Date) :
    writeTargets (initSteps config now) = initPaths config := by
  by_cases hu : config.GitHubUsername = "" <;>
    simp [initSteps, initPaths, baseSteps, githubSteps, basePaths, githubPaths, writeTargets,
      Step.target, hu]

theorem initPaths_nodup (config : ProjectConfig) : (initPaths config).Nodup := by
  by_cases hu : config.GitHubUsername = "" <;>
    simp [initPaths, basePaths, githubPaths, hu]

/-! ## The `init` command: what `runInit` does to existing files -/

/-- C1 (fails on the code): with `CLAUDE.md` present, `overwrite=false` and
`dry-run=false`, the detector reports `CLAUDE.md` and `runInit` prints its
warning, yet it runs the initializer: it returns no error and the `CLAUDE.md`
written by hand is replaced by the rendered template. -/
theorem runInit_replaces_existing_claudeMD :
    CheckExistingClaudeFiles "." fsWithClaudeMD = ["CLAUDE.md"] ∧
    (runInit ⟨"", "", false⟩ ⟨false, false⟩ sampleProcess fsWithClaudeMD).err = none ∧
    fsWithClaudeMD.node ⟨false, ["CLAUDE.md"]⟩ = some (.file "my notes\n") ∧
    (runInit ⟨"", "", false⟩ ⟨false, false⟩ sampleProcess fsWithClaudeMD).fs.node
        ⟨false, ["CLAUDE.md"]⟩ =
      some (.file (claudeMDText
        ⟨"proj", "", "A project optimized for Claude Code development", "", false, false, false,
          true⟩ ⟨2026, 11, 4⟩)) ∧
    (runInit ⟨"", "", false⟩ ⟨false, false⟩ sampleProcess fsWithClaudeMD).fs.node
        ⟨false, ["CLAUDE.md"]⟩ ≠ fsWithClaudeMD.node ⟨false, ["CLAUDE.md"]⟩ ∧
    (runInit ⟨"", "", false⟩ ⟨false, false⟩ sampleProcess fsWithClaudeMD).stdout.take 2 =
      ["Found existing Claude Code files: [CLAUDE.md]\n",
       "Use --overwrite to replace existing files\n"] := by
  decide!

/-- C2 (as stated, fails): with `dry-run=true` and a working directory that
cannot be resolved, `runInit` returns an error. -/
theorem runInit_dryRun_getwd_error :
    (runInit ⟨"", "", false⟩ ⟨true, false⟩ lostProcess emptyFS).err ≠ none := by
  decide

/-- C2 (amended): with `dry-run=true`, whatever the other flags and the
filesystem, `runInit` leaves the filesystem as it is; it returns no error
exactly when `os.Getwd` succeeds, and exactly then its last output is the
dry-run notice; the error and the output do not depend on the date, which only
the initializer reads; when `os.Getwd` fails the error returned is that error
wrapped as `failed to get current directory`, and nothing is printed. -/
theorem runInit_dryRun (flags : InitFlags) (verbose : Bool) (proc : Process) (fs : FS) :
    (runInit flags ⟨true, verbose⟩ proc fs).fs = fs ∧
    ((runInit flags ⟨true, verbose⟩ proc fs).err = none ↔ ∃ cwd, proc.getwd = .ok cwd) ∧
    ((runInit flags ⟨true, verbose⟩ proc fs).err = none ↔
      (runInit flags ⟨true, verbose⟩ proc fs).stdout.getLast? =
        some "DRY RUN - No files will be created\n") ∧
    (∀ date, (runInit flags ⟨true, verbose⟩ ⟨proc.getwd, date⟩ fs).err =
        (runInit flags ⟨true, verbose⟩ proc fs).err ∧
      (runInit flags ⟨true, verbose⟩ ⟨proc.getwd, date⟩ fs).stdout =
        (runInit flags ⟨true, verbose⟩ proc fs).stdout) ∧
    (∀ e, proc.getwd = .error e →
      (runInit flags ⟨true, verbose⟩ proc fs).err =
        some (.wrapped "failed to get current directory" (.pathError "getwd" "" e)) ∧
      (runInit flags ⟨true, verbose⟩ proc fs).stdout = []) := by
  unfold runInit
  cases hg : proc.getwd with
  | error e => simp
  | ok cwd => simp

/-- C8 (fails on the code): in a directory with a `Makefile` and no Claude Code
file, `runInit` with `overwrite=false` finds nothing to report, returns no
error and replaces the content of the `Makefile` by the template. -/
theorem runInit_replaces_existing_makefile :
    CheckExistingClaudeFiles "." fsWithMakefile = [] ∧
    (runInit ⟨"", "", false⟩ ⟨false, false⟩ sampleProcess fsWithMakefile).err = none ∧
    fsWithMakefile.node ⟨false, ["Makefile"]⟩ = some (.file "all:\n\tgo build ./...\n") ∧
    (runInit ⟨"", "", false⟩ ⟨false, false⟩ sampleProcess fsWithMakefile).fs.node
        ⟨false, ["Makefile"]⟩ =
      some (.file (makefileContent
        ⟨"proj", "", "A project optimized for Claude Code development", "", false, false, false,
          true⟩)) ∧
    (runInit ⟨"", "", false⟩ ⟨false, false⟩ sampleProcess fsWithMakefile).fs.node
        ⟨false, ["Makefile"]⟩ ≠ fsWithMakefile.node ⟨false, ["Makefile"]⟩ := by
  decide!

/-! ## The empty working directory -/

theorem mkdirAllAux_of_dir (name : String) (rooted : Bool) {rev : List String} {fs : FS}
    (h : statPath fs ⟨rooted, rev.reverse⟩ = .ok .dir) :
    mkdirAllAux name rooted rev fs = ⟨fs, none⟩ := by
  cases rev with
  | nil => rw [mkdirAllAux, mkdirAllAt]; simp only [List.reverse_nil] at h; rw [h]
  | cons c rest => rw [mkdirAllAux, mkdirAllAt, h]

/-- The function `os.MkdirAll` on a missing path whose parent is an accessible
directory makes exactly that directory. -/
theorem osMkdirAll_create {name : String} {fs : FS} (hn : name ≠ "")
    (ha : fs.noAccess (resolve name) = false) (hnode : fs.node (resolve name) = none)
    (hpa : fs.noAccess (resolve name).parent = false)
    (hpar : fs.node (resolve name).parent = some .dir) :
    osMkdirAll name fs = ⟨fs.set (resolve name) .dir, none⟩ := by
  unfold osMkdirAll
  simp only [hn, if_false]
  have hp : (⟨(resolve name).rooted, (resolve name).comps.reverse.reverse⟩ : Path)
      = resolve name := by simp
  have hstat : statPath fs (resolve name) = .error .ENOENT := by simp [statPath, ha, hnode]
  have hmk : mkdirPath fs (resolve name) = .ok (fs.set (resolve name) .dir) := by
    simp [mkdirPath, ha, hnode, hpar]
  cases hr : (resolve name).comps.reverse with
  | nil =>
    have hc : (resolve name).comps = [] := by simpa using hr
    have : (resolve name).parent = resolve name := by
      cases hx : resolve name; simp [hx] at hc; simp [Path.parent, hc]
    rw [this, hnode] at hpar; cases hpar
  | cons c rest =>
    rw [hr] at hp
    have hc : (resolve name).comps = rest.reverse ++ [c] := by
      have := congrArg List.reverse hr
      simpa using this
    have hparent : (resolve name).parent = ⟨(resolve name).rooted, rest.reverse⟩ := by
      simp [Path.parent, hc]
    have hpstat : statPath fs ⟨(resolve name).rooted, rest.reverse⟩ = .ok .dir := by
      rw [← hparent, statPath_dir_iff]; exact ⟨hpa, hpar⟩
    rw [mkdirAllAux, hp, mkdirAllAux_of_dir name _ hpstat]
    simp [mkdirAllAt, hstat, hmk]

theorem emptyFS_noAccess (p : Path) : emptyFS.noAccess p = false := rfl

theorem runSteps_baseSteps_emptyFS (config : ProjectConfig) (now : Date) :
    (runSteps (baseSteps config now) emptyFS).err = none := by
  simp [baseSteps, runSteps_cons, Step.run, osMkdirAll_create, osMkdirAll_of_dir,
    writeFile_of_missing, statPath_dir_iff, emptyFS, Path.parent, Path.cwd, runSteps_nil]

theorem initSteps_of_no_username {config : ProjectConfig} (now : Date)
    (hu : config.GitHubUsername = "") : initSteps config now = baseSteps config now := by
  simp [initSteps, hu]

theorem initSteps_of_username {config : ProjectConfig} (now : Date)
    (hu : config.GitHubUsername ≠ "") :
    initSteps config now = baseSteps config now ++ githubSteps config := by
  simp [initSteps, hu]

theorem writeTargets_baseSteps (config : ProjectConfig) (now : Date) :
    writeTargets (baseSteps config now) = basePaths := by
  simp [baseSteps, basePaths, writeTargets, Step.target]

theorem basePaths_nodup : basePaths.Nodup := by
  simp [basePaths]

theorem prefix_one {l : List String} {a : String} (h : l <+: [a]) : l = [] ∨ l = [a] := by
  rcases List.prefix_cons_iff.1 h with h | ⟨t, rfl, ht⟩
  · exact Or.inl h
  · exact Or.inr (by rw [List.prefix_nil.1 ht])

theorem prefix_two {l : List String} {a b : String} (h : l <+: [a, b]) :
    l = [] ∨ l = [a] ∨ l = [a, b] := by
  rcases List.prefix_cons_iff.1 h with h | ⟨t, rfl, ht⟩
  · exact Or.inl h
  · rcases prefix_one ht with rfl | rfl
    · exact Or.inr (Or.inl rfl)
    · exact Or.inr (Or.inr rfl)

theorem baseSteps_makes {config : ProjectConfig} {now : Date} {s : Step} {q : Path}
    (hs : s ∈ baseSteps config now) (hm : s.makes q) :
    q ∈ [Path.cwd, ⟨false, [".claude"]⟩, ⟨false, [".github"]⟩,
      ⟨false, [".github", "workflows"]⟩] := by
  obtain ⟨r, cs⟩ := q
  simp only [baseSteps, List.mem_cons, List.mem_singleton, List.not_mem_nil, or_false] at hs
  have h1 : ∀ a : String, r = false ∧ cs <+: [a] →
      (⟨r, cs⟩ : Path) = Path.cwd ∨ (⟨r, cs⟩ : Path) = ⟨false, [a]⟩ := by
    rintro a ⟨rfl, h⟩
    rcases prefix_one h with rfl | rfl
    · exact Or.inl rfl
    · exact Or.inr rfl
  have h2 : ∀ a b : String, r = false ∧ cs <+: [a, b] →
      (⟨r, cs⟩ : Path) = Path.cwd ∨ (⟨r, cs⟩ : Path) = ⟨false, [a]⟩ ∨
        (⟨r, cs⟩ : Path) = ⟨false, [a, b]⟩ := by
    rintro a b ⟨rfl, h⟩
    rcases prefix_two h with rfl | rfl | rfl
    · exact Or.inl rfl
    · exact Or.inr (Or.inl rfl)
    · exact Or.inr (Or.inr rfl)
  simp only [List.mem_cons, List.mem_singleton, List.not_mem_nil, or_false]
  rcases hs with rfl | rfl | rfl | rfl | rfl | rfl | rfl | rfl | rfl | rfl | rfl
  · rcases h1 _ (by simpa [Step.makes] using hm) with h | h <;> simp [h]
  · rcases h1 _ (by simpa [Step.makes] using hm) with h | h <;> simp [h]
  · rcases h2 _ _ (by simpa [Step.makes] using hm) with h | h | h <;> simp [h]
  · exact absurd hm (by simp [Step.makes])
  · rcases h1 _ (by simpa [Step.makes] using hm) with h | h <;> simp [h]
  · exact absurd hm (by simp [Step.makes])
  · exact absurd hm (by simp [Step.makes])
  · exact absurd hm (by simp [Step.makes])
  · exact absurd hm (by simp [Step.makes])
  · rcases h2 _ _ (by simpa [Step.makes] using hm) with h | h | h <;> simp [h]
  · exact absurd hm (by simp [Step.makes])

/-- C3: from an empty working directory and with no GitHub username,
`InitializeProject` succeeds; the files it leaves are exactly the six base
files, each with the content of its template; the directories are exactly the
working directory, `.claude`, `.github` and `.github/workflows`; nothing exists
at the five GitHub-integration paths nor under `.github/ISSUE_TEMPLATE`. -/
theorem InitializeProject_empty_dir (config : ProjectConfig) (now : Date)
    (hu : config.GitHubUsername = "") :
    (InitializeProject config now emptyFS).err = none ∧
    (∀ p, (∃ c, (InitializeProject config now emptyFS).fs.node p = some (.file c)) ↔
      p ∈ basePaths) ∧
    (∀ name content, Step.write name content ∈ baseSteps config now →
      (InitializeProject config now emptyFS).fs.node (resolve name) = some (.file content)) ∧
    (∀ p, (InitializeProject config now emptyFS).fs.node p = some .dir ↔
      p ∈ [Path.cwd, ⟨false, [".claude"]⟩, ⟨false, [".github"]⟩,
        ⟨false, [".github", "workflows"]⟩]) ∧
    (∀ p, p ∈ githubPaths ∨ [".github", "ISSUE_TEMPLATE"] <+: p.comps →
      (InitializeProject config now emptyFS).fs.node p = none) := by
  have hsim := InitializeProject_sim config now emptyFS
  rw [initSteps_of_no_username now hu] at hsim
  have hok := runSteps_baseSteps_emptyFS config now
  have hset := runSteps_settles (by rw [writeTargets_baseSteps]; exact basePaths_nodup) hok
  have hev := runSteps_evolves (baseSteps config now) emptyFS
  rw [writeTargets_baseSteps] at hev
  rw [hsim.1]
  have hfiles : ∀ p, (∃ c, (runSteps (baseSteps config now) emptyFS).fs.node p
      = some (.file c)) ↔ p ∈ basePaths := by
    intro p
    constructor
    · rintro ⟨c, hc⟩
      rcases hev.2 p with e | ⟨_, d, _⟩ | ⟨w, _, _⟩
      · rw [hc] at e
        simp only [emptyFS] at e
        split at e <;> cases e
      · rw [hc] at d; cases d
      · exact w
    · intro hp
      simp only [basePaths, List.mem_cons, List.mem_singleton, List.not_mem_nil, or_false] at hp
      rcases hp with rfl | rfl | rfl | rfl | rfl | rfl
      · exact ⟨_, by simpa using (hset (.write "CLAUDE.md" (claudeMDText config now))
          (by simp [baseSteps])).2.2⟩
      · exact ⟨_, by simpa using (hset (.write ".claude/README.md" claudeReadmeContent)
          (by simp [baseSteps])).2.2⟩
      · exact ⟨_, by simpa using (hset (.write ".gitignore" gitIgnoreContent)
          (by simp [baseSteps])).2.2⟩
      · exact ⟨_, by simpa using (hset (.write "Makefile" (makefileContent config))
          (by simp [baseSteps])).2.2⟩
      · exact ⟨_, by simpa using (hset (.write ".pre-commit-config.yaml" preCommitContent)
          (by simp [baseSteps])).2.2⟩
      · exact ⟨_, by simpa using (hset (.write ".github/workflows/ci.yml" workflowContent)
          (by simp [baseSteps])).2.2⟩
  have hdirs : ∀ p, (runSteps (baseSteps config now) emptyFS).fs.node p = some .dir ↔
      p ∈ [Path.cwd, ⟨false, [".claude"]⟩, ⟨false, [".github"]⟩,
        ⟨false, [".github", "workflows"]⟩] := by
    intro p
    constructor
    · intro hd
      rcases hev.2 p with e | ⟨_, _, s, hs, hm⟩ | ⟨_, _, c, hc⟩
      · rw [hd] at e
        simp only [emptyFS] at e
        split at e
        · rename_i h; simp [h]
        · cases e
      · exact baseSteps_makes hs hm
      · rw [hd] at hc; cases hc
    · intro hp
      simp only [List.mem_cons, List.mem_singleton, List.not_mem_nil, or_false] at hp
      rcases hp with rfl | rfl | rfl | rfl
      · rcases hev.2 Path.cwd with e | ⟨n, _, _⟩ | ⟨w, _, _⟩
        · rw [e]; rfl
        · cases n
        · simp [basePaths, Path.cwd] at w
      · have := (hset (.mkdirAll ".claude") (by simp [baseSteps])).2
        rw [statPath_dir_iff] at this; simpa using this.2
      · have := (hset (.mkdirAll ".github") (by simp [baseSteps])).2
        rw [statPath_dir_iff] at this; simpa using this.2
      · have := (hset (.mkdirAll ".github/workflows") (by simp [baseSteps])).2
        rw [statPath_dir_iff] at this; simpa using this.2
  refine ⟨hsim.2.2 hok, hfiles, ?_, hdirs, ?_⟩
  · intro name content hmem
    exact (hset _ hmem).2.2
  · intro p hp
    cases hn : (runSteps (baseSteps config now) emptyFS).fs.node p with
    | none => rfl
    | some n =>
      exfalso
      cases n with
      | file c =>
        have hb := (hfiles p).1 ⟨c, hn⟩
        simp only [basePaths, List.mem_cons, List.mem_singleton, List.not_mem_nil,
          or_false] at hb
        rcases hp with hp | hp
        · rcases hb with rfl | rfl | rfl | rfl | rfl | rfl <;> simp [githubPaths] at hp
        · rcases hb with rfl | rfl | rfl | rfl | rfl | rfl <;>
            simp [List.prefix_cons_iff] at hp
      | dir =>
        have hb := (hdirs p).1 hn
        simp only [List.mem_cons, List.mem_singleton, List.not_mem_nil, or_false] at hb
        rcases hp with hp | hp
        · rcases hb with rfl | rfl | rfl | rfl <;> simp [githubPaths, Path.cwd] at hp
        · rcases hb with rfl | rfl | rfl | rfl <;>
            simp [List.prefix_cons_iff, Path.cwd] at hp

/-- C3, at a concrete configuration. -/
theorem InitializeProject_empty_dir_witness :
    (InitializeProject ⟨"proj", "", "A project", "", false, false, false, true⟩
        ⟨2026, 11, 4⟩ emptyFS).err = none ∧
    (InitializeProject ⟨"proj", "", "A project", "", false, false, false, true⟩
        ⟨2026, 11, 4⟩ emptyFS).fs.node ⟨false, ["LICENSE"]⟩ = none :=
  ⟨(InitializeProject_empty_dir ⟨"proj", "", "A project", "", false, false, false, true⟩
      ⟨2026, 11, 4⟩ rfl).1,
   (InitializeProject_empty_dir ⟨"proj", "", "A project", "", false, false, false, true⟩
      ⟨2026, 11, 4⟩ rfl).2.2.2.2 _ (Or.inl (by simp [githubPaths]))⟩

/-! ## The GitHub-integration files and the second run -/

theorem Contains.append_right {s sub : String} (t : String) (h : Contains s sub) :
    Contains (s ++ t) sub := by
  obtain ⟨pre, post, rfl⟩ := h
  exact ⟨pre, post ++ t, by rw [String.append_assoc]⟩

theorem Contains.append_left {s sub : String} (t : String) (h : Contains s sub) :
    Contains (t ++ s) sub := by
  obtain ⟨pre, post, rfl⟩ := h
  exact ⟨t ++ pre, post, by simp only [String.append_assoc]⟩

theorem Contains.suffix (pre sub : String) : Contains (pre ++ sub) sub :=
  ⟨pre, "", by rw [String.append_empty]⟩

theorem Contains.self (sub : String) : Contains sub sub :=
  ⟨"", "", by rw [String.append_empty, String.nil_append]⟩

theorem bugReportContent_contains (config : ProjectConfig) :
    Contains (bugReportContent config) config.GitHubUsername :=
  Contains.append_right _ (Contains.suffix _ _)

theorem featureRequestContent_contains (config : ProjectConfig) :
    Contains (featureRequestContent config) config.GitHubUsername :=
  Contains.append_right _ (Contains.suffix _ _)

theorem licenseContent_contains (config : ProjectConfig) :
    Contains (licenseContent config) config.GitHubUsername :=
  Contains.append_right _ (Contains.suffix _ _)

theorem contributingContent_contains (config : ProjectConfig) :
    Contains (contributingContent config) config.GitHubUsername := by
  unfold contributingContent
  refine Contains.append_right _ (Contains.append_right _ (Contains.append_right _ ?_))
  exact Contains.suffix _ _

theorem initSteps_nodup (config : ProjectConfig) (now : Date) :
    (writeTargets (initSteps config now)).Nodup := by
  rw [writeTargets_initSteps]; exact initPaths_nodup config

/-- Every file `InitializeProject` writes holds, after a run without error, the
content of its template. -/
theorem InitializeProject_written {config : ProjectConfig} {now : Date} {fs : FS}
    (hok : (InitializeProject config now fs).err = none) (name content : String)
    (hmem : Step.write name content ∈ initSteps config now) :
    (InitializeProject config now fs).fs.node (resolve name) = some (.file content) := by
  have hsim := InitializeProject_sim config now fs
  rw [hsim.1]
  exact (runSteps_settles (initSteps_nodup config now) (hsim.2.1 hok) _ hmem).2.2

/-- C4: with a GitHub username, a run of `InitializeProject` without error
leaves the five GitHub-integration files with the content of their templates,
and the username occurs in the license, the contributing guide and both issue
templates. -/
theorem InitializeProject_github_files (config : ProjectConfig) (now : Date) (fs : FS)
    (hu : config.GitHubUsername ≠ "") (hok : (InitializeProject config now fs).err = none) :
    (InitializeProject config now fs).fs.node
        ⟨false, [".github", "ISSUE_TEMPLATE", "bug_report.md"]⟩
      = some (.file (bugReportContent config)) ∧
    (InitializeProject config now fs).fs.node
        ⟨false, [".github", "ISSUE_TEMPLATE", "feature_request.md"]⟩
      = some (.file (featureRequestContent config)) ∧
    (InitializeProject config now fs).fs.node ⟨false, [".github", "pull_request_template.md"]⟩
      = some (.file prTemplateContent) ∧
    (InitializeProject config now fs).fs.node ⟨false, ["CONTRIBUTING.md"]⟩
      = some (.file (contributingContent config)) ∧
    (InitializeProject config now fs).fs.node ⟨false, ["LICENSE"]⟩
      = some (.file (licenseContent config)) ∧
    Contains (licenseContent config) config.GitHubUsername ∧
    Contains (contributingContent config) config.GitHubUsername ∧
    Contains (bugReportContent config) config.GitHubUsername ∧
    Contains (featureRequestContent config) config.GitHubUsername := by
  have hs := initSteps_of_username now hu
  refine ⟨?_, ?_, ?_, ?_, ?_, licenseContent_contains config, contributingContent_contains config,
    bugReportContent_contains config, featureRequestContent_contains config⟩
  · simpa using InitializeProject_written hok
      ".github/ISSUE_TEMPLATE/bug_report.md" (bugReportContent config)
      (by rw [hs]; simp [githubSteps])
  · simpa using InitializeProject_written hok
      ".github/ISSUE_TEMPLATE/feature_request.md"
      (featureRequestContent config) (by rw [hs]; simp [githubSteps])
  · simpa using InitializeProject_written hok
      ".github/pull_request_template.md" prTemplateContent
      (by rw [hs]; simp [githubSteps])
  · simpa using InitializeProject_written hok
      "CONTRIBUTING.md" (contributingContent config)
      (by rw [hs]; simp [githubSteps])
  · simpa using InitializeProject_written hok
      "LICENSE" (licenseContent config) (by rw [hs]; simp [githubSteps])

theorem sampleConfig_ok :
    (InitializeProject sampleConfig ⟨2026, 11, 4⟩ emptyFS).err = none := by decide!

/-- C4, at the user `octocat` in an empty directory. -/
theorem InitializeProject_github_files_witness :
    (InitializeProject sampleConfig ⟨2026, 11, 4⟩ emptyFS).fs.node ⟨false, ["LICENSE"]⟩
      = some (.file (licenseContent sampleConfig)) ∧
    Contains (licenseContent sampleConfig) "octocat" :=
  ⟨(InitializeProject_github_files sampleConfig ⟨2026, 11, 4⟩ emptyFS (by decide)
      sampleConfig_ok).2.2.2.2.1,
   (InitializeProject_github_files sampleConfig ⟨2026, 11, 4⟩ emptyFS (by decide)
      sampleConfig_ok).2.2.2.2.2.1⟩

/-- C5: after a run of `InitializeProject` without error, a second run with the
same configuration and date, whatever its `Overwrite` field, also returns no
error and leaves the filesystem exactly as the first run left it; every file
written holds the content of its template after the first run and after the
second. -/
theorem InitializeProject_idempotent (config : ProjectConfig) (now : Date) (fs : FS)
    (hok : (InitializeProject config now fs).err = none) :
    (InitializeProject config now (InitializeProject config now fs).fs).err = none ∧
    (InitializeProject config now (InitializeProject config now fs).fs).fs
      = (InitializeProject config now fs).fs ∧
    ∀ name content, Step.write name content ∈ initSteps config now →
      (InitializeProject config now fs).fs.node (resolve name) = some (.file content) ∧
      (InitializeProject config now (InitializeProject config now fs).fs).fs.node (resolve name)
        = some (.file content) := by
  have hsim := InitializeProject_sim config now fs
  have hset := runSteps_settles (initSteps_nodup config now) (hsim.2.1 hok)
  rw [← hsim.1] at hset
  have hrun := runSteps_of_settled hset
  have hsim2 := InitializeProject_sim config now (InitializeProject config now fs).fs
  rw [hrun] at hsim2
  refine ⟨hsim2.2.2 rfl, hsim2.1, fun name content hmem => ?_⟩
  rw [hsim2.1]
  exact ⟨(hset _ hmem).2.2, (hset _ hmem).2.2⟩

/-- C5, at a configuration with `Overwrite` set, in an empty directory. -/
theorem InitializeProject_idempotent_witness :
    sampleConfig.Overwrite = true ∧
    (InitializeProject sampleConfig ⟨2026, 11, 4⟩
      (InitializeProject sampleConfig ⟨2026, 11, 4⟩ emptyFS).fs).fs
      = (InitializeProject sampleConfig ⟨2026, 11, 4⟩ emptyFS).fs :=
  ⟨rfl, (InitializeProject_idempotent sampleConfig ⟨2026, 11, 4⟩ emptyFS sampleConfig_ok).2.1⟩

/-! ## The date of `CLAUDE.md` -/

theorem digitChar_isDigit (n : Nat) : (digitChar n).isDigit = true := by
  unfold digitChar
  have h : n % 10 < 10 := Nat.mod_lt _ (by decide)
  generalize n % 10 = d at h
  interval_cases d <;> decide

theorem digitsRev_isDigit : ∀ (fuel n : Nat), ∀ c ∈ digitsRev fuel n, c.isDigit = true
  | 0, _, c, hc => by simp [digitsRev] at hc
  | fuel + 1, n, c, hc => by
    rw [digitsRev] at hc
    rcases List.mem_cons.1 hc with rfl | hc
    · exact digitChar_isDigit n
    · split at hc
      · cases hc
      · exact digitsRev_isDigit fuel (n / 10) c hc

theorem digitsRev_length_le : ∀ (k fuel n : Nat), n < 10 ^ (k + 1) →
    (digitsRev fuel n).length ≤ k + 1
  | _, 0, _, _ => by simp [digitsRev]
  | 0, fuel + 1, n, h => by
    have h0 : n / 10 = 0 := by omega
    simp [digitsRev, h0]
  | k + 1, fuel + 1, n, h => by
    rw [digitsRev]
    split
    · simp
    · have h1 : n / 10 < 10 ^ (k + 1) := by
        rw [Nat.div_lt_iff_lt_mul (by decide)]
        calc n < 10 ^ (k + 1 + 1) := h
          _ = 10 ^ (k + 1) * 10 := by rw [pow_succ]
      have := digitsRev_length_le k fuel (n / 10) h1
      simp only [List.length_cons]
      omega

theorem appendInt_length {x w : Nat} (hw : 0 < w) (h : x < 10 ^ w) :
    (appendInt x w).data.length = w := by
  obtain ⟨k, rfl⟩ : ∃ k, w = k + 1 := ⟨w - 1, by omega⟩
  have := digitsRev_length_le k (x + 1) x h
  simp only [appendInt, List.length_append, List.length_replicate, List.length_reverse]
  omega

theorem appendInt_isDigit (x w : Nat) : ∀ c ∈ (appendInt x w).data, c.isDigit = true := by
  intro c hc
  simp only [appendInt, List.mem_append, List.mem_replicate, List.mem_reverse] at hc
  rcases hc with ⟨_, rfl⟩ | hc
  · decide
  · exact digitsRev_isDigit _ _ c hc

theorem Date.format_isISODate {d : Date} (hy : d.year ≤ 9999) (hm : d.month ≤ 12)
    (hd : d.day ≤ 31) : isISODate d.format = true := by
  have ly := appendInt_length (x := d.year) (w := 4) (by decide) (by omega)
  have lm := appendInt_length (x := d.month) (w := 2) (by decide) (by omega)
  have ld := appendInt_length (x := d.day) (w := 2) (by decide) (by omega)
  have dy := appendInt_isDigit d.year 4
  have dm := appendInt_isDigit d.month 2
  have dd := appendInt_isDigit d.day 2
  have hdata : d.format.data =
      (appendInt d.year 4).data ++ '-' :: ((appendInt d.month 2).data ++
        '-' :: (appendInt d.day 2).data) := by
    simp [Date.format, String.data_append]
  generalize (appendInt d.year 4).data = ys at ly dy hdata
  generalize (appendInt d.month 2).data = ms at lm dm hdata
  generalize (appendInt d.day 2).data = ds at ld dd hdata
  rcases ys with _ | ⟨y1, _ | ⟨y2, _ | ⟨y3, _ | ⟨y4, _ | ⟨y5, ys⟩⟩⟩⟩⟩ <;>
    simp at ly
  rcases ms with _ | ⟨m1, _ | ⟨m2, _ | ⟨m3, ms⟩⟩⟩ <;> simp at lm
  rcases ds with _ | ⟨d1, _ | ⟨d2, _ | ⟨d3, ds⟩⟩⟩ <;> simp at ld
  simp only [List.mem_cons, List.mem_singleton, List.not_mem_nil, or_false,
    forall_eq_or_imp, forall_eq] at dy dm dd
  simp [isISODate, hdata, dy.1, dy.2.1, dy.2.2.1, dy.2.2.2, dm.1, dm.2, dd.1, dd.2]

theorem claudeMDText_contains_name (config : ProjectConfig) (now : Date) :
    Contains (claudeMDText config now) config.Name := by
  rw [claudeMDText_eq]
  exact ⟨"# ", "\n\n" ++ (config.Description ++ (claudeMDBody ++ (now.format ++ "*\n"))),
    by simp only [String.append_assoc]⟩

theorem claudeMDText_contains_description (config : ProjectConfig) (now : Date) :
    Contains (claudeMDText config now) config.Description := by
  rw [claudeMDText_eq]
  exact ⟨"# " ++ (config.Name ++ "\n\n"), claudeMDBody ++ (now.format ++ "*\n"),
    by simp only [String.append_assoc]⟩

theorem claudeMDText_last_line (config : ProjectConfig) (now : Date) :
    ∃ pre, claudeMDText config now = pre ++ "*Generated by cc on " ++ now.format ++ "*\n" := by
  rw [claudeMDText_eq, claudeMDBody_eq]
  exact ⟨"# " ++ (config.Name ++ ("\n\n" ++ (config.Description ++
    String.mk (claudeMDBody.data.take (claudeMDBody.data.length - 20))))),
    by simp only [String.append_assoc]⟩

theorem generateClaudeMD_emptyFS (config : ProjectConfig) (now : Date) :
    (generateClaudeMD "." config now emptyFS).err = none := by
  have hsim := generateClaudeMD_sim "." config now emptyFS
  rw [join_claudeMD, writeFile_of_missing (by decide) rfl (by simp [emptyFS, Path.cwd])
    (by simp [emptyFS, Path.cwd, Path.parent])] at hsim
  exact hsim.2.2 rfl

theorem generateClaudeMD_written (config : ProjectConfig) (now : Date) (fs : FS)
    (hok : (generateClaudeMD "." config now fs).err = none) :
    (generateClaudeMD "." config now fs).fs.node ⟨false, ["CLAUDE.md"]⟩
      = some (.file (claudeMDText config now)) := by
  have hsim := generateClaudeMD_sim "." config now fs
  rw [join_claudeMD] at hsim
  have hrun : ((Step.write "CLAUDE.md" (claudeMDText config now)).run fs).err = none :=
    hsim.2.1 hok
  have := (Step.run_settles hrun).2.2
  rw [hsim.1]
  simpa [Step.run] using this

theorem digitsRev_pos {fuel : Nat} (n : Nat) (hf : 0 < fuel) :
    digitsRev fuel n =
      digitChar n :: (if n / 10 = 0 then [] else digitsRev (fuel - 1) (n / 10)) := by
  cases fuel with
  | zero => cases hf
  | succ f => rw [digitsRev]; rfl

theorem digitChar_zero : digitChar 0 = '0' := by decide

/-- The year of a date, as `appendInt` prints it at width four: its thousands,
hundreds, tens and units. -/
theorem appendInt_four {x : Nat} (h : x ≤ 9999) :
    appendInt x 4 =
      String.mk [digitChar (x / 1000), digitChar (x / 100), digitChar (x / 10), digitChar x] := by
  have e100 : x / 10 / 10 = x / 100 := by rw [Nat.div_div_eq_div_mul]
  have e1000 : x / 100 / 10 = x / 1000 := by rw [Nat.div_div_eq_div_mul]
  unfold appendInt
  by_cases h1 : x / 10 = 0
  · have a : x / 100 = 0 := by omega
    have b : x / 1000 = 0 := by omega
    rw [digitsRev_pos x (by omega)]
    simp [h1, a, b, List.replicate, digitChar_zero]
  · rw [digitsRev_pos x (by omega), if_neg h1, digitsRev_pos (x / 10) (by omega), e100]
    by_cases h2 : x / 100 = 0
    · have b : x / 1000 = 0 := by omega
      simp [h2, b, List.replicate, digitChar_zero]
    · rw [if_neg h2, digitsRev_pos (x / 100) (by omega), e1000]
      by_cases h3 : x / 1000 = 0
      · simp [h3, List.replicate, digitChar_zero]
      · have h4 : x / 1000 / 10 = 0 := by omega
        rw [if_neg h3, digitsRev_pos (x / 1000) (by omega), if_pos h4]
        simp [List.replicate]

/-- The month or the day of a date, as `appendInt` prints it at width two. -/
theorem appendInt_two {x : Nat} (h : x ≤ 99) :
    appendInt x 2 = String.mk [digitChar (x / 10), digitChar x] := by
  unfold appendInt
  by_cases h1 : x / 10 = 0
  · rw [digitsRev_pos x (by omega)]
    simp [h1, List.replicate, digitChar_zero]
  · have h2 : x / 10 / 10 = 0 := by omega
    rw [digitsRev_pos x (by omega), if_neg h1, digitsRev_pos (x / 10) (by omega), if_pos h2]
    simp [List.replicate]

theorem digitValue_digitChar (n : Nat) : digitValue (digitChar n) = n % 10 := by
  unfold digitChar digitValue
  have h : n % 10 < 10 := Nat.mod_lt _ (by decide)
  generalize n % 10 = d at h
  interval_cases d <;> decide

/-- The text `t.Format("2006-01-02")` prints for a date: the digits of its year,
month and day. -/
theorem Date.format_eq {d : Date} (hy : d.year ≤ 9999) (hm : d.month ≤ 12) (hd : d.day ≤ 31) :
    d.format =
      String.mk [digitChar (d.year / 1000), digitChar (d.year / 100), digitChar (d.year / 10),
        digitChar d.year, '-', digitChar (d.month / 10), digitChar d.month, '-',
        digitChar (d.day / 10), digitChar d.day] := by
  unfold Date.format
  rw [appendInt_four hy, appendInt_two (by omega : d.month ≤ 99),
    appendInt_two (by omega : d.day ≤ 99)]
  apply String.ext
  simp [String.data_append]

theorem Date.readISODate_format {d : Date} (hy : d.year ≤ 9999) (hm : d.month ≤ 12)
    (hd : d.day ≤ 31) : readISODate d.format = some d := by
  rw [Date.format_eq hy hm hd]
  obtain ⟨y, m, dd⟩ := d
  simp only at hy hm hd ⊢
  simp only [readISODate, digitChar_isDigit, digitValue_digitChar, Bool.and_self, if_true,
    Option.some.injEq, Date.mk.injEq]
  refine ⟨?_, ?_, ?_⟩ <;> omega

/-- C6: for every name and description, and every date of a year up to 9999,
the text `generateClaudeMD` renders contains the name and the description as
they are, and ends with the line `*Generated by cc on YYYY-MM-DD*` where the
date is four digits, a dash, two digits, a dash and two digits; that text is
what `CLAUDE.md` holds whenever `generateClaudeMD` returns no error, and in an
empty directory it returns none.  The date printed is the date of the run: its
digits are the thousands, hundreds, tens and units of the year, the tens and
units of the month and the tens and units of the day, and read back as a date
they give the year, the month and the day. -/
theorem generateClaudeMD_content (config : ProjectConfig) (now : Date)
    (hy : now.year ≤ 9999) (hm : now.month ≤ 12) (hd : now.day ≤ 31) :
    Contains (claudeMDText config now) config.Name ∧
    Contains (claudeMDText config now) config.Description ∧
    isISODate now.format = true ∧
    (∃ pre, claudeMDText config now = pre ++ "*Generated by cc on " ++ now.format ++ "*\n") ∧
    (∀ fs, (generateClaudeMD "." config now fs).err = none →
      (generateClaudeMD "." config now fs).fs.node ⟨false, ["CLAUDE.md"]⟩
        = some (.file (claudeMDText config now))) ∧
    (generateClaudeMD "." config now emptyFS).err = none ∧
    now.format =
      String.mk [digitChar (now.year / 1000), digitChar (now.year / 100),
        digitChar (now.year / 10), digitChar now.year, '-', digitChar (now.month / 10),
        digitChar now.month, '-', digitChar (now.day / 10), digitChar now.day] ∧
    readISODate now.format = some now :=
  ⟨claudeMDText_contains_name config now, claudeMDText_contains_description config now,
    Date.format_isISODate hy hm hd, claudeMDText_last_line config now,
    generateClaudeMD_written config now, generateClaudeMD_emptyFS config now,
    Date.format_eq hy hm hd, Date.readISODate_format hy hm hd⟩

/-- C6, at a description that contains template delimiters, on 4 November 2026. -/
theorem generateClaudeMD_content_witness :
    Contains (claudeMDText sampleConfig ⟨2026, 11, 4⟩) "A \x7b\x7bsmall\x7d\x7d project" ∧
    (Date.mk 2026 11 4).format = "2026-11-04" ∧
    isISODate (Date.mk 2026 11 4).format = true ∧
    readISODate (Date.mk 2026 11 4).format = some ⟨2026, 11, 4⟩ :=
  ⟨(generateClaudeMD_content sampleConfig ⟨2026, 11, 4⟩ (by decide) (by decide)
      (by decide)).2.1,
   by decide,
   (generateClaudeMD_content sampleConfig ⟨2026, 11, 4⟩ (by decide) (by decide)
      (by decide)).2.2.1,
   (generateClaudeMD_content sampleConfig ⟨2026, 11, 4⟩ (by decide) (by decide)
      (by decide)).2.2.2.2.2.2.2⟩

/-! ## The detector of existing files -/

/-- C7: for every base directory and filesystem, `CheckExistingClaudeFiles`
returns the labels `CLAUDE.md` and `.claude/`, in that order, for which
`os.Stat` of the joined path succeeds; a label whose `os.Stat` fails, with
whatever error, is absent.  The function returns a list and nothing else: it
has no error to return, and reads the filesystem without changing it. -/
theorem CheckExistingClaudeFiles_spec (dir : String) (fs : FS) :
    CheckExistingClaudeFiles dir fs =
      ["CLAUDE.md", ".claude/"].filter
        (fun l => (osStat fs (filepathJoin [dir, l])).toBool) ∧
    (CheckExistingClaudeFiles dir fs).Sublist ["CLAUDE.md", ".claude/"] ∧
    (∀ l, l ∈ CheckExistingClaudeFiles dir fs ↔
      l ∈ ["CLAUDE.md", ".claude/"] ∧ ∃ n, osStat fs (filepathJoin [dir, l]) = .ok n) ∧
    (∀ l e, osStat fs (filepathJoin [dir, l]) = .error e →
      l ∉ CheckExistingClaudeFiles dir fs) := by
  have h1 : CheckExistingClaudeFiles dir fs =
      ["CLAUDE.md", ".claude/"].filter
        (fun l => (osStat fs (filepathJoin [dir, l])).toBool) := by
    unfold CheckExistingClaudeFiles
    cases ha : osStat fs (filepathJoin [dir, "CLAUDE.md"]) <;>
      cases hb : osStat fs (filepathJoin [dir, ".claude/"]) <;>
      simp [List.filter, ha, hb, Except.toBool]
  have h3 : ∀ l, l ∈ CheckExistingClaudeFiles dir fs ↔
      l ∈ ["CLAUDE.md", ".claude/"] ∧ ∃ n, osStat fs (filepathJoin [dir, l]) = .ok n := by
    intro l
    rw [h1, List.mem_filter]
    refine and_congr_right (fun _ => ?_)
    cases osStat fs (filepathJoin [dir, l]) <;> simp [Except.toBool]
  refine ⟨h1, ?_, h3, ?_⟩
  · rw [h1]; exact List.filter_sublist _
  · intro l e he hl
    obtain ⟨_, n, hn⟩ := (h3 l).1 hl
    rw [he] at hn; cases hn

/-! ## Failure in the middle of the sequence, and what is never touched -/

theorem writeTargets_append (a b : List Step) :
    writeTargets (a ++ b) = writeTargets a ++ writeTargets b := by
  simp [writeTargets, List.filterMap_append]

theorem runSteps_fail_at {pre post : List Step} {s : Step} {fs : FS}
    (hpre : (runSteps pre fs).err = none) (hfail : (s.run (runSteps pre fs).fs).err ≠ none) :
    runSteps (pre ++ s :: post) fs = s.run (runSteps pre fs).fs := by
  rw [runSteps_append, Outcome.andThen_ok _ hpre, runSteps_cons, Outcome.andThen_err _ hfail]

/-- C9: `InitializeProject` leaves the filesystem, and fails or not, as its
operations run in order do; and when the operations before one of them all
succeed and that one fails, `InitializeProject` returns an error, the
filesystem is the one that failing operation left (no later operation has
run), and every file written before it holds the content written. -/
theorem InitializeProject_fail_fast (config : ProjectConfig) (now : Date) (fs : FS)
    (pre post : List Step) (s : Step) (hseq : initSteps config now = pre ++ s :: post)
    (hpre : (runSteps pre fs).err = none)
    (hfail : (s.run (runSteps pre fs).fs).err ≠ none) :
    (InitializeProject config now fs).sim (runSteps (initSteps config now) fs) ∧
    (InitializeProject config now fs).err ≠ none ∧
    (InitializeProject config now fs).fs = (s.run (runSteps pre fs).fs).fs ∧
    ∀ name content, Step.write name content ∈ pre →
      (InitializeProject config now fs).fs.node (resolve name) = some (.file content) := by
  have hsim := InitializeProject_sim config now fs
  have hrun : runSteps (initSteps config now) fs = s.run (runSteps pre fs).fs := by
    rw [hseq]; exact runSteps_fail_at hpre hfail
  have hnd := initSteps_nodup config now
  rw [hseq, writeTargets_append] at hnd
  refine ⟨hsim, fun h => hfail (hrun ▸ hsim.2.1 h), by rw [hsim.1, hrun], ?_⟩
  intro name content hmem
  rw [hsim.1, hrun]
  have hset := runSteps_settles (List.Nodup.of_append_left hnd) hpre _ hmem
  refine (hset.evolves (s.run_evolves _) ?_).2.2
  intro q hq hs
  have hq' : q ∈ writeTargets pre := by
    simp only [writeTargets, List.mem_filterMap]
    exact ⟨_, hmem, hq⟩
  have hs' : q ∈ writeTargets (s :: post) := by
    simp only [writeTargets, List.filterMap_cons, hs]
    exact List.mem_cons_self _ _
  exact List.disjoint_of_nodup_append hnd hq' hs'

/-- C9, in a directory where `Makefile` is a directory: the write of `Makefile`
fails after `CLAUDE.md`, `.claude/README.md` and `.gitignore` were written. -/
theorem InitializeProject_fail_fast_witness :
    (InitializeProject sampleConfig ⟨2026, 11, 4⟩ fsMakefileDir).err ≠ none ∧
    (InitializeProject sampleConfig ⟨2026, 11, 4⟩ fsMakefileDir).fs.node
        (resolve ".gitignore") = some (.file gitIgnoreContent) :=
  have h := InitializeProject_fail_fast sampleConfig ⟨2026, 11, 4⟩ fsMakefileDir
    ((baseSteps sampleConfig ⟨2026, 11, 4⟩).take 7)
    ((baseSteps sampleConfig ⟨2026, 11, 4⟩).drop 8 ++ githubSteps sampleConfig)
    (.write "Makefile" (makefileContent sampleConfig)) rfl (by decide!) (by decide!)
  ⟨h.2.1, h.2.2.2 ".gitignore" gitIgnoreContent (by simp [baseSteps])⟩

/-- Where every node is kept under one path: after `InitializeProject`,
whether it failed or not, every path that held something still holds something, directories are still directories and
files are still files, access rights are unchanged, and every file at a path
other than the six base paths (and, with a GitHub username, the five
GitHub-integration paths) has the content it had; so with no GitHub username a
file at one of the five GitHub-integration paths keeps its content. -/
theorem InitializeProject_frame (config : ProjectConfig) (now : Date) (fs : FS) :
    (∀ p, fs.node p ≠ none → (InitializeProject config now fs).fs.node p ≠ none) ∧
    (∀ p, fs.node p = some .dir → (InitializeProject config now fs).fs.node p = some .dir) ∧
    (∀ p c, fs.node p = some (.file c) →
      ∃ c', (InitializeProject config now fs).fs.node p = some (.file c')) ∧
    (∀ p c, fs.node p = some (.file c) → p ∉ initPaths config →
      (InitializeProject config now fs).fs.node p = some (.file c)) ∧
    (∀ p c, config.GitHubUsername = "" → p ∈ githubPaths → fs.node p = some (.file c) →
      (InitializeProject config now fs).fs.node p = some (.file c)) ∧
    (InitializeProject config now fs).fs.noAccess = fs.noAccess := by
  have hsim := InitializeProject_sim config now fs
  have hev := runSteps_evolves (initSteps config now) fs
  rw [writeTargets_initSteps, ← hsim.1] at hev
  have hfile : ∀ p c, fs.node p = some (.file c) → p ∉ initPaths config →
      (InitializeProject config now fs).fs.node p = some (.file c) := by
    intro p c hp hnot
    rcases hev.2 p with e | ⟨n, _, _⟩ | ⟨w, _, _⟩
    · rw [e]; exact hp
    · rw [hp] at n; cases n
    · exact absurd w hnot
  refine ⟨?_, ?_, ?_, hfile, ?_, hev.1⟩
  · intro p hp
    rcases hev.2 p with e | ⟨_, d, _⟩ | ⟨_, _, c, hc⟩
    · rw [e]; exact hp
    · rw [d]; simp
    · rw [hc]; simp
  · intro p hp
    rcases hev.2 p with e | ⟨n, _, _⟩ | ⟨_, nd, _⟩
    · rw [e]; exact hp
    · rw [hp] at n; cases n
    · exact absurd hp nd
  · intro p c hp
    rcases hev.2 p with e | ⟨n, _, _⟩ | ⟨_, _, c', hc⟩
    · exact ⟨c, by rw [e]; exact hp⟩
    · rw [hp] at n; cases n
    · exact ⟨c', hc⟩
  · intro p c hu hmem hp
    refine hfile p c hp ?_
    simp only [initPaths, hu, ne_eq, not_true_eq_false, if_false, List.append_nil]
    simp only [githubPaths, List.mem_cons, List.mem_singleton, List.not_mem_nil, or_false] at hmem
    rcases hmem with rfl | rfl | rfl | rfl | rfl <;> simp [basePaths]

/-! ## The fields of the configuration the initializer never reads -/

theorem writeFile_written {name content : String} {fs : FS}
    (h : (writeFile name content fs).err = none) :
    (writeFile name content fs).fs.node (resolve name) = some (.file content) := by
  rcases writeFile_cases name content fs with ⟨_, he⟩ | ⟨_, _, _, hw⟩
  · exact absurd h he
  · rw [hw]; simp

theorem claudeMDData_congr {c1 c2 : ProjectConfig} (now : Date) (hn : c1.Name = c2.Name)
    (hd : c1.Description = c2.Description) : claudeMDData c1 now = claudeMDData c2 now := by
  unfold claudeMDData
  rw [hn, hd]

theorem claudeMDText_congr {c1 c2 : ProjectConfig} (now : Date) (hn : c1.Name = c2.Name)
    (hd : c1.Description = c2.Description) : claudeMDText c1 now = claudeMDText c2 now := by
  unfold claudeMDText
  rw [claudeMDData_congr now hn hd]

theorem makefileContent_congr {c1 c2 : ProjectConfig} (hn : c1.Name = c2.Name) :
    makefileContent c1 = makefileContent c2 := by
  unfold makefileContent
  rw [hn]

theorem bugReportContent_congr {c1 c2 : ProjectConfig}
    (hu : c1.GitHubUsername = c2.GitHubUsername) :
    bugReportContent c1 = bugReportContent c2 := by
  unfold bugReportContent
  rw [hu]

theorem featureRequestContent_congr {c1 c2 : ProjectConfig}
    (hu : c1.GitHubUsername = c2.GitHubUsername) :
    featureRequestContent c1 = featureRequestContent c2 := by
  unfold featureRequestContent
  rw [hu]

theorem contributingContent_congr {c1 c2 : ProjectConfig} (hn : c1.Name = c2.Name)
    (hu : c1.GitHubUsername = c2.GitHubUsername) :
    contributingContent c1 = contributingContent c2 := by
  unfold contributingContent
  rw [hn, hu]

theorem licenseContent_congr {c1 c2 : ProjectConfig}
    (hu : c1.GitHubUsername = c2.GitHubUsername) :
    licenseContent c1 = licenseContent c2 := by
  unfold licenseContent
  rw [hu]

/-- The operations of `InitializeProject` depend on the name, the description
and the GitHub username of the configuration only. -/
theorem initSteps_congr {c1 c2 : ProjectConfig} (now : Date) (hn : c1.Name = c2.Name)
    (hd : c1.Description = c2.Description) (hu : c1.GitHubUsername = c2.GitHubUsername) :
    initSteps c1 now = initSteps c2 now := by
  unfold initSteps baseSteps githubSteps
  rw [claudeMDText_congr now hn hd, makefileContent_congr hn, bugReportContent_congr hu,
    featureRequestContent_congr hu, contributingContent_congr hn hu, licenseContent_congr hu, hu]

/-- The method `InitializeProject` depends on the name, the description and the
GitHub username of the configuration only. -/
theorem InitializeProject_congr {c1 c2 : ProjectConfig} (now : Date) (fs : FS)
    (hn : c1.Name = c2.Name) (hd : c1.Description = c2.Description)
    (hu : c1.GitHubUsername = c2.GitHubUsername) :
    InitializeProject c1 now fs = InitializeProject c2 now fs := by
  unfold InitializeProject createClaudeStructure generateClaudeFiles generateDevelopmentFiles
    generateGitHubIntegration generateClaudeMD generateClaudeExamples generateGitIgnore
    generateGenericMakefile generatePreCommitConfig generateGenericGitHubWorkflow
  rw [claudeMDData_congr now hn hd, makefileContent_congr hn, bugReportContent_congr hu,
    featureRequestContent_congr hu, contributingContent_congr hn hu, licenseContent_congr hu, hu]

theorem writeFile_ok_iff (name content : String) (fs : FS) :
    (writeFile name content fs).err = none ↔
      (name ≠ "" ∧ fs.noAccess (resolve name) = false ∧
        ((∃ old, fs.node (resolve name) = some (.file old)) ∨
          (fs.node (resolve name) = none ∧ fs.node (resolve name).parent = some .dir))) := by
  constructor
  · intro h
    by_cases hn : name = ""
    · simp [writeFile, osWriteFile, openTrunc, hn] at h
    · cases ha : fs.noAccess (resolve name)
      · refine ⟨hn, rfl, ?_⟩
        cases hnode : fs.node (resolve name) with
        | none =>
          cases hp : fs.node (resolve name).parent with
          | none => simp [writeFile, osWriteFile, openTrunc, hn, ha, hnode, hp] at h
          | some n =>
            cases n with
            | file c => simp [writeFile, osWriteFile, openTrunc, hn, ha, hnode, hp] at h
            | dir => exact Or.inr ⟨rfl, rfl⟩
        | some n =>
          cases n with
          | dir => simp [writeFile, osWriteFile, openTrunc, hn, ha, hnode] at h
          | file c => exact Or.inl ⟨c, rfl⟩
      · simp [writeFile, osWriteFile, openTrunc, hn, ha] at h
  · rintro ⟨hn, ha, ⟨old, ho⟩ | ⟨h1, h2⟩⟩
    · rw [writeFile_of_file hn ha ho]
    · rw [writeFile_of_missing hn ha h1 h2]

/-- C11: a configuration changed only in its `Type`, `Overwrite`, `DryRun`,
`Verbose` and `Integration` fields has the same sequence of operations, and
`InitializeProject` returns the same error or none and leaves the same
filesystem, from every starting filesystem.  Whether a write succeeds does not
depend on what the file held, and a write that succeeds leaves the file with
exactly the content written; so after a run without error every file written
holds the content of its template. -/
theorem InitializeProject_ignores_overwrite (config : ProjectConfig) (now : Date) (fs : FS)
    (type : String) (overwrite dryRun verbose integration : Bool) :
    initSteps
        ⟨config.Name, type, config.Description, config.GitHubUsername, overwrite, dryRun,
          verbose, integration⟩ now = initSteps config now ∧
    InitializeProject
        ⟨config.Name, type, config.Description, config.GitHubUsername, overwrite, dryRun,
          verbose, integration⟩ now fs = InitializeProject config now fs ∧
    (∀ name content old,
      ((writeFile name content (fs.set (resolve name) (.file old))).err = none ↔
        (name ≠ "" ∧ fs.noAccess (resolve name) = false)) ∧
      ((writeFile name content (fs.set (resolve name) (.file old))).err = none →
        (writeFile name content (fs.set (resolve name) (.file old))).fs
          = fs.set (resolve name) (.file content))) ∧
    (∀ name content, Step.write name content ∈ initSteps config now →
      (InitializeProject config now fs).err = none →
      (InitializeProject config now fs).fs.node (resolve name) = some (.file content)) := by
  refine ⟨initSteps_congr now rfl rfl rfl, InitializeProject_congr now fs rfl rfl rfl, ?_,
    fun name content hmem hok => InitializeProject_written hok name content hmem⟩
  intro name content old
  constructor
  · rw [writeFile_ok_iff]
    simp
  · intro h
    obtain ⟨hn, ha, _⟩ := (writeFile_ok_iff _ _ _).1 h
    rw [writeFile_of_file hn ha (c := old) (by simp), FS.set_set]

theorem emptyFS_evolves_cwd {W D : Path → Prop} {fs : FS} (h : Evolves W D emptyFS fs)
    (hW : ¬ W Path.cwd) : fs.node Path.cwd = some .dir := by
  rcases h.2 Path.cwd with e | ⟨n, _, _⟩ | ⟨w, _, _⟩
  · rw [e]; rfl
  · cases n
  · exact absurd w hW

theorem emptyFS_evolves_none {W D : Path → Prop} {fs : FS} (h : Evolves W D emptyFS fs)
    {p : Path} (hc : p ≠ Path.cwd) (hW : ¬ W p) (hD : ¬ D p) : fs.node p = none := by
  rcases h.2 p with e | ⟨_, _, d⟩ | ⟨w, _, _⟩
  · rw [e]; simp [emptyFS, hc]
  · exact absurd d hD
  · exact absurd w hW

/-- After the base operations in an empty directory nothing exists at a path
that is neither one of the six files nor one of the four directories. -/
theorem baseSteps_emptyFS_none (config : ProjectConfig) (now : Date) {p : Path}
    (h1 : p ∉ basePaths)
    (h2 : p ∉ [Path.cwd, ⟨false, [".claude"]⟩, ⟨false, [".github"]⟩,
      ⟨false, [".github", "workflows"]⟩]) :
    (runSteps (baseSteps config now) emptyFS).fs.node p = none := by
  have hev := runSteps_evolves (baseSteps config now) emptyFS
  rw [writeTargets_baseSteps] at hev
  refine emptyFS_evolves_none hev (fun h => h2 (h ▸ List.mem_cons_self _ _)) h1 ?_
  rintro ⟨s, hs, hm⟩
  exact h2 (baseSteps_makes hs hm)

theorem runSteps_githubSteps_ok (config : ProjectConfig) {fs : FS}
    (hacc : ∀ p, fs.noAccess p = false) (hcwd : fs.node ⟨false, []⟩ = some .dir)
    (hgh : fs.node ⟨false, [".github"]⟩ = some .dir)
    (h0 : fs.node ⟨false, [".github", "ISSUE_TEMPLATE"]⟩ = none)
    (h1 : fs.node ⟨false, [".github", "ISSUE_TEMPLATE", "bug_report.md"]⟩ = none)
    (h2 : fs.node ⟨false, [".github", "ISSUE_TEMPLATE", "feature_request.md"]⟩ = none)
    (h3 : fs.node ⟨false, [".github", "pull_request_template.md"]⟩ = none)
    (h4 : fs.node ⟨false, ["CONTRIBUTING.md"]⟩ = none)
    (h5 : fs.node ⟨false, ["LICENSE"]⟩ = none) :
    (runSteps (githubSteps config) fs).err = none := by
  simp [githubSteps, runSteps_cons, Step.run, osMkdirAll_create, writeFile_of_missing, Path.parent,
    runSteps_nil, hacc, hcwd, hgh, h0, h1, h2, h3, h4, h5]

/-- From an empty working directory `InitializeProject` returns no error,
whatever the configuration. -/
theorem InitializeProject_emptyFS_ok (config : ProjectConfig) (now : Date) :
    (InitializeProject config now emptyFS).err = none := by
  have hsim := InitializeProject_sim config now emptyFS
  refine hsim.2.2 ?_
  have hbase := runSteps_baseSteps_emptyFS config now
  by_cases hu : config.GitHubUsername = ""
  · rw [initSteps_of_no_username now hu]; exact hbase
  · rw [initSteps_of_username now hu, runSteps_append, Outcome.andThen_ok _ hbase]
    have hev := runSteps_evolves (baseSteps config now) emptyFS
    rw [writeTargets_baseSteps] at hev
    have hset := runSteps_settles
      (by rw [writeTargets_baseSteps]; exact basePaths_nodup) hbase
    have hgh := (hset (.mkdirAll ".github") (by simp [baseSteps])).2
    rw [statPath_dir_iff, resolve_github] at hgh
    have hcwd := emptyFS_evolves_cwd hev (by simp [basePaths, Path.cwd])
    have h0 := baseSteps_emptyFS_none config now
      (p := ⟨false, [".github", "ISSUE_TEMPLATE"]⟩) (by simp [basePaths]) (by simp [Path.cwd])
    have h1 := baseSteps_emptyFS_none config now
      (p := ⟨false, [".github", "ISSUE_TEMPLATE", "bug_report.md"]⟩) (by simp [basePaths])
      (by simp [Path.cwd])
    have h2 := baseSteps_emptyFS_none config now
      (p := ⟨false, [".github", "ISSUE_TEMPLATE", "feature_request.md"]⟩) (by simp [basePaths])
      (by simp [Path.cwd])
    have h3 := baseSteps_emptyFS_none config now
      (p := ⟨false, [".github", "pull_request_template.md"]⟩) (by simp [basePaths])
      (by simp [Path.cwd])
    have h4 := baseSteps_emptyFS_none config now
      (p := ⟨false, ["CONTRIBUTING.md"]⟩) (by simp [basePaths]) (by simp [Path.cwd])
    have h5 := baseSteps_emptyFS_none config now
      (p := ⟨false, ["LICENSE"]⟩) (by simp [basePaths]) (by simp [Path.cwd])
    have hacc : ∀ p, (runSteps (baseSteps config now) emptyFS).fs.noAccess p = false := by
      intro p; rw [hev.1]; rfl
    generalize (runSteps (baseSteps config now) emptyFS).fs = fs1 at hgh hcwd h0 h1 h2 h3 h4 h5 hacc
    exact runSteps_githubSteps_ok config hacc hcwd hgh.2 h0 h1 h2 h3 h4 h5

/-! ## Directories before the files written into them -/

theorem parentsMade_split : ∀ (steps : List Step) (made : List Path), parentsMade made steps →
    ∀ (pre post : List Step) (name content : String),
      steps = pre ++ Step.write name content :: post →
      (resolve name).parent = Path.cwd ∨ (resolve name).parent ∈ made ∨
        ∃ d, Step.mkdirAll d ∈ pre ∧ resolve d = (resolve name).parent
  | [], _, _, pre, post, name, content, h => by
    cases pre <;> cases h
  | .mkdirAll d :: rest, made, hp, pre, post, name, content, h => by
    cases pre with
    | nil => cases h
    | cons s pre' =>
      simp only [List.cons_append, List.cons.injEq] at h
      obtain ⟨rfl, h⟩ := h
      rcases parentsMade_split rest _ hp pre' post name content h with h1 | h2 | ⟨e, he, hr⟩
      · exact Or.inl h1
      · rcases List.mem_cons.1 h2 with h2 | h2
        · exact Or.inr (Or.inr ⟨d, List.mem_cons_self _ _, h2.symm⟩)
        · exact Or.inr (Or.inl h2)
      · exact Or.inr (Or.inr ⟨e, List.mem_cons_of_mem _ he, hr⟩)
  | .write n c :: rest, made, hp, pre, post, name, content, h => by
    cases pre with
    | nil =>
      simp only [List.nil_append, List.cons.injEq, Step.write.injEq] at h
      obtain ⟨⟨rfl, rfl⟩, _⟩ := h
      rcases hp.1 with h1 | h2
      · exact Or.inl h1
      · exact Or.inr (Or.inl h2)
    | cons s pre' =>
      simp only [List.cons_append, List.cons.injEq] at h
      obtain ⟨rfl, h⟩ := h
      rcases parentsMade_split rest _ hp.2 pre' post name content h with h1 | h2 | ⟨e, he, hr⟩
      · exact Or.inl h1
      · exact Or.inr (Or.inl h2)
      · exact Or.inr (Or.inr ⟨e, List.mem_cons_of_mem _ he, hr⟩)

theorem parentsMade_initSteps (config : ProjectConfig) (now : Date) :
    parentsMade [] (initSteps config now) := by
  by_cases hu : config.GitHubUsername = "" <;>
    simp [initSteps, baseSteps, githubSteps, parentsMade, Path.parent, Path.cwd, hu]

/-- C12 (as stated, fails): `CLAUDE.md` is written by the sequence, and no
`os.MkdirAll` of the sequence names its parent directory, the working
directory. -/
theorem initSteps_no_mkdir_of_cwd :
    Step.write "CLAUDE.md" (claudeMDText sampleConfig ⟨2026, 11, 4⟩)
      ∈ initSteps sampleConfig ⟨2026, 11, 4⟩ ∧
    (resolve "CLAUDE.md").parent = Path.cwd ∧
    ¬ ∃ d, Step.mkdirAll d ∈ initSteps sampleConfig ⟨2026, 11, 4⟩ ∧
      resolve d = (resolve "CLAUDE.md").parent := by
  refine ⟨by simp [initSteps, baseSteps], by decide, ?_⟩
  rintro ⟨d, hmem, hd⟩
  simp only [initSteps, baseSteps, githubSteps, sampleConfig, ne_eq, List.mem_append,
    List.mem_cons, List.mem_singleton, List.not_mem_nil, or_false, Step.mkdirAll.injEq,
    reduceCtorEq, false_or, or_false] at hmem
  revert hd
  have hp : (resolve "CLAUDE.md").parent = Path.cwd := by decide
  rw [hp]
  rcases hmem with (rfl | rfl | rfl | rfl | rfl) | hmem
  · decide
  · decide
  · decide
  · decide
  · decide
  · split at hmem
    · simp only [List.mem_cons, List.mem_singleton, List.not_mem_nil, or_false,
        Step.mkdirAll.injEq, reduceCtorEq, false_or, or_false] at hmem
      subst hmem; decide
    · cases hmem

theorem initSteps_mkdirAll_names {config : ProjectConfig} {now : Date} {d : String}
    (h : Step.mkdirAll d ∈ initSteps config now) :
    d = ".claude" ∨ d = ".github" ∨ d = ".github/workflows" ∨ d = ".github/ISSUE_TEMPLATE" := by
  by_cases hu : config.GitHubUsername = "" <;>
    simp [initSteps, baseSteps, githubSteps, hu] at h <;> aesop

theorem initSteps_no_mkdirAll_cwd (config : ProjectConfig) (now : Date) :
    ¬ ∃ d, Step.mkdirAll d ∈ initSteps config now ∧ resolve d = Path.cwd := by
  rintro ⟨d, hmem, hd⟩
  rcases initSteps_mkdirAll_names hmem with rfl | rfl | rfl | rfl <;>
    revert hd <;> decide

/-- C12 (amended): in the sequence of `InitializeProject`, every write either
goes into the working directory itself, for which the sequence has no
create-directory operation, or is preceded by an `os.MkdirAll` of its parent
directory; from an empty working directory the run returns no error, and at
each write the operations before it have succeeded, the parent directory
exists and the write succeeds; for no configuration does the sequence hold an
`os.MkdirAll` of the working directory. -/
theorem InitializeProject_parents_first (config : ProjectConfig) (now : Date)
    (pre post : List Step) (name content : String)
    (hseq : initSteps config now = pre ++ Step.write name content :: post) :
    ((resolve name).parent = Path.cwd ∨
      ∃ d, Step.mkdirAll d ∈ pre ∧ resolve d = (resolve name).parent) ∧
    (InitializeProject config now emptyFS).err = none ∧
    (runSteps pre emptyFS).err = none ∧
    (runSteps pre emptyFS).fs.node (resolve name).parent = some .dir ∧
    ((Step.write name content).run (runSteps pre emptyFS).fs).err = none ∧
    ¬ ∃ d, Step.mkdirAll d ∈ initSteps config now ∧ resolve d = Path.cwd := by
  have hord : (resolve name).parent = Path.cwd ∨
      ∃ d, Step.mkdirAll d ∈ pre ∧ resolve d = (resolve name).parent := by
    rcases parentsMade_split _ _ (parentsMade_initSteps config now) pre post name content hseq
      with h | h | h
    · exact Or.inl h
    · cases h
    · exact Or.inr h
  have hok := InitializeProject_emptyFS_ok config now
  have hrun := (InitializeProject_sim config now emptyFS).2.1 hok
  rw [hseq, runSteps_append] at hrun
  obtain ⟨hpre, hrest⟩ := Outcome.andThen_err_none hrun
  rw [runSteps_cons] at hrest
  have hstep := (Outcome.andThen_err_none hrest).1
  have hnd := initSteps_nodup config now
  rw [hseq, writeTargets_append] at hnd
  refine ⟨hord, hok, hpre, ?_, hstep, initSteps_no_mkdirAll_cwd config now⟩
  rcases hord with h | ⟨d, hd, hr⟩
  · rw [h]
    have hev := runSteps_evolves pre emptyFS
    refine emptyFS_evolves_cwd hev ?_
    intro hmem
    have : Path.cwd ∈ writeTargets (initSteps config now) := by
      rw [hseq, writeTargets_append]; exact List.mem_append_left _ hmem
    rw [writeTargets_initSteps] at this
    by_cases hu : config.GitHubUsername = "" <;>
      simp [initPaths, basePaths, githubPaths, Path.cwd, hu] at this
  · have hset := (runSteps_settles (List.Nodup.of_append_left hnd) hpre _ hd).2
    rw [statPath_dir_iff] at hset
    rw [← hr]; exact hset.2

/-- C12 (amended), at the write of `.github/ISSUE_TEMPLATE/bug_report.md`: the
`os.MkdirAll` of `.github/ISSUE_TEMPLATE` comes before it. -/
theorem InitializeProject_parents_first_witness :
    ((resolve ".github/ISSUE_TEMPLATE/bug_report.md").parent = Path.cwd ∨
      ∃ d, Step.mkdirAll d ∈
          baseSteps sampleConfig ⟨2026, 11, 4⟩ ++ [Step.mkdirAll ".github/ISSUE_TEMPLATE"] ∧
        resolve d = (resolve ".github/ISSUE_TEMPLATE/bug_report.md").parent) ∧
    (InitializeProject sampleConfig ⟨2026, 11, 4⟩ emptyFS).err = none :=
  have h := InitializeProject_parents_first sampleConfig ⟨2026, 11, 4⟩
    (baseSteps sampleConfig ⟨2026, 11, 4⟩ ++ [Step.mkdirAll ".github/ISSUE_TEMPLATE"])
    ((githubSteps sampleConfig).drop 2)
    ".github/ISSUE_TEMPLATE/bug_report.md" (bugReportContent sampleConfig)
    (by simp [initSteps, githubSteps, sampleConfig])
  ⟨h.1, h.2.1⟩

/-! ## The default configuration file -/

/-- C13 (fails on the code): without `--config`, `initConfig` sets the base
name `.cc`; with the home directory `/home/u` the names viper tries are
`/home/u/.cc.json`, `/home/u/.cc.toml`, `/home/u/.cc.yaml` and so on, and
`/home/u/.cc-init.yaml` is not among them: a home directory that holds
`.cc-init.yaml` yields no configuration file, one that holds `.cc.yaml` yields
that file. -/
theorem initConfig_default_name :
    (∀ home, (initConfig "" (.ok home)).toOption = some ⟨"", [home], "yaml", ".cc", true⟩) ∧
    ((initConfig "" (.ok "/home/u")).toOption.map viperCandidates) =
      some ["/home/u/.cc.json", "/home/u/.cc.toml", "/home/u/.cc.yaml", "/home/u/.cc.yml",
        "/home/u/.cc.properties", "/home/u/.cc.props", "/home/u/.cc.prop", "/home/u/.cc.hcl",
        "/home/u/.cc.tfvars", "/home/u/.cc.dotenv", "/home/u/.cc.env", "/home/u/.cc.ini",
        "/home/u/.cc"] ∧
    "/home/u/.cc-init.yaml" ∉ viperCandidates ⟨"", ["/home/u"], "yaml", ".cc", true⟩ ∧
    viperExists fsHomeCcInit "/home/u/.cc-init.yaml" = true ∧
    viperConfigFileUsed ⟨"", ["/home/u"], "yaml", ".cc", true⟩ fsHomeCcInit = none ∧
    viperConfigFileUsed ⟨"", ["/home/u"], "yaml", ".cc", true⟩ fsHomeCc
      = some "/home/u/.cc.yaml" :=
  ⟨fun _ => rfl, by decide, by decide, by decide, by decide, by decide⟩

/-! ## Files reached under another name -/

theorem writeTargets_redirect (canon : Path → Path) (steps : List Step) :
    writeTargets (steps.map (Step.redirect canon)) =
      (writeTargets steps).map (fun p => resolve (canon p).name) := by
  induction steps with
  | nil => rfl
  | cons s rest ih =>
    cases s with
    | mkdirAll name =>
      simpa [writeTargets, Step.redirect, Step.target] using ih
    | write name content =>
      simp only [writeTargets, List.map_cons, List.filterMap_cons, Step.redirect, Step.target,
        List.map_cons] at ih ⊢
      rw [ih]

theorem initSteps_redirect_id (config : ProjectConfig) (now : Date) :
    (initSteps config now).map (Step.redirect id) = initSteps config now := by
  have e1 : (⟨false, [".claude"]⟩ : Path).name = ".claude" := by decide
  have e2 : (⟨false, [".github"]⟩ : Path).name = ".github" := by decide
  have e3 : (⟨false, [".github", "workflows"]⟩ : Path).name = ".github/workflows" := by decide
  have e4 : (⟨false, ["CLAUDE.md"]⟩ : Path).name = "CLAUDE.md" := by decide
  have e5 : (⟨false, [".claude", "README.md"]⟩ : Path).name = ".claude/README.md" := by decide
  have e6 : (⟨false, [".gitignore"]⟩ : Path).name = ".gitignore" := by decide
  have e7 : (⟨false, ["Makefile"]⟩ : Path).name = "Makefile" := by decide
  have e8 : (⟨false, [".pre-commit-config.yaml"]⟩ : Path).name = ".pre-commit-config.yaml" := by
    decide
  have e9 : (⟨false, [".github", "workflows", "ci.yml"]⟩ : Path).name
      = ".github/workflows/ci.yml" := by decide
  have e10 : (⟨false, [".github", "ISSUE_TEMPLATE"]⟩ : Path).name
      = ".github/ISSUE_TEMPLATE" := by decide
  have e11 : (⟨false, [".github", "ISSUE_TEMPLATE", "bug_report.md"]⟩ : Path).name
      = ".github/ISSUE_TEMPLATE/bug_report.md" := by decide
  have e12 : (⟨false, [".github", "ISSUE_TEMPLATE", "feature_request.md"]⟩ : Path).name
      = ".github/ISSUE_TEMPLATE/feature_request.md" := by decide
  have e13 : (⟨false, [".github", "pull_request_template.md"]⟩ : Path).name
      = ".github/pull_request_template.md" := by decide
  have e14 : (⟨false, ["CONTRIBUTING.md"]⟩ : Path).name = "CONTRIBUTING.md" := by decide
  have e15 : (⟨false, ["LICENSE"]⟩ : Path).name = "LICENSE" := by decide
  by_cases hu : config.GitHubUsername = "" <;>
    simp [initSteps, baseSteps, githubSteps, Step.redirect, hu, e1, e2, e3, e4, e5, e6, e7, e8,
      e9, e10, e11, e12, e13, e14, e15]

/-- C10 (as stated, fails): with `Makefile` a symbolic link to `notes.txt` and
no GitHub username, `notes.txt` is not one of the paths written, yet after the
run, which returns no error, it holds the text of the Makefile template instead
of its content. -/
theorem InitializeProject_rewrites_link_target :
    (⟨false, ["notes.txt"]⟩ : Path) ∉ initPaths plainConfig ∧
    fsMakefileLink.store.node ⟨false, ["notes.txt"]⟩ = some (.file "remember the milk\n") ∧
    (InitializeProjectAliased plainConfig ⟨2026, 11, 4⟩ fsMakefileLink).err = none ∧
    (InitializeProjectAliased plainConfig ⟨2026, 11, 4⟩ fsMakefileLink).fs.node
        ⟨false, ["notes.txt"]⟩ = some (.file (makefileContent plainConfig)) ∧
    (InitializeProjectAliased plainConfig ⟨2026, 11, 4⟩ fsMakefileLink).fs.node
        ⟨false, ["notes.txt"]⟩ ≠ fsMakefileLink.store.node ⟨false, ["notes.txt"]⟩ := by
  decide!

/-- C10 (amended): on every filesystem, with aliases or not, and whether the
run fails or not, every path of the store that held something still holds
something, directories are still directories and files are still files, and a
file that none of the paths written reaches has the content it had.  Without
aliases the run is that of `InitializeProject` itself: access rights are
unchanged, every file at a path other than the six base paths (and, with a
GitHub username, the five GitHub-integration paths) has the content it had, and
with no GitHub username a file at one of the five GitHub-integration paths
keeps its content. -/
theorem InitializeProject_frame_aliased (config : ProjectConfig) (now : Date)
    (a : AliasedFS) :
    (∀ q, a.store.node q ≠ none → (InitializeProjectAliased config now a).fs.node q ≠ none) ∧
    (∀ q, a.store.node q = some .dir →
      (InitializeProjectAliased config now a).fs.node q = some .dir) ∧
    (∀ q c, a.store.node q = some (.file c) →
      ∃ c', (InitializeProjectAliased config now a).fs.node q = some (.file c')) ∧
    (∀ q c, a.store.node q = some (.file c) →
      (∀ p ∈ initPaths config, a.reach p ≠ q) →
      (InitializeProjectAliased config now a).fs.node q = some (.file c)) ∧
    (InitializeProject config now a.store).sim
      (InitializeProjectAliased config now ⟨a.store, id⟩) ∧
    (∀ p, a.store.node p ≠ none → (InitializeProject config now a.store).fs.node p ≠ none) ∧
    (∀ p, a.store.node p = some .dir →
      (InitializeProject config now a.store).fs.node p = some .dir) ∧
    (∀ p c, a.store.node p = some (.file c) →
      ∃ c', (InitializeProject config now a.store).fs.node p = some (.file c')) ∧
    (∀ p c, a.store.node p = some (.file c) → p ∉ initPaths config →
      (InitializeProject config now a.store).fs.node p = some (.file c)) ∧
    (∀ p c, config.GitHubUsername = "" → p ∈ githubPaths →
      a.store.node p = some (.file c) →
      (InitializeProject config now a.store).fs.node p = some (.file c)) ∧
    (InitializeProject config now a.store).fs.noAccess = a.store.noAccess := by
  have hev := runSteps_evolves ((initSteps config now).map (Step.redirect a.canon)) a.store
  rw [writeTargets_redirect, writeTargets_initSteps] at hev
  have hid : InitializeProjectAliased config now ⟨a.store, id⟩
      = runSteps (initSteps config now) a.store := by
    unfold InitializeProjectAliased
    rw [initSteps_redirect_id]
  have hf := InitializeProject_frame config now a.store
  refine ⟨?_, ?_, ?_, ?_, ?_, hf.1, hf.2.1, hf.2.2.1, hf.2.2.2.1, hf.2.2.2.2.1, hf.2.2.2.2.2⟩
  · intro q hq
    rcases hev.2 q with e | ⟨_, d, _⟩ | ⟨_, _, c, hc⟩
    · unfold InitializeProjectAliased; rw [e]; exact hq
    · unfold InitializeProjectAliased; rw [d]; simp
    · unfold InitializeProjectAliased; rw [hc]; simp
  · intro q hq
    rcases hev.2 q with e | ⟨n, _, _⟩ | ⟨_, nd, _⟩
    · unfold InitializeProjectAliased; rw [e]; exact hq
    · rw [hq] at n; cases n
    · exact absurd hq nd
  · intro q c hq
    rcases hev.2 q with e | ⟨n, _, _⟩ | ⟨_, _, c', hc⟩
    · exact ⟨c, by unfold InitializeProjectAliased; rw [e]; exact hq⟩
    · rw [hq] at n; cases n
    · exact ⟨c', hc⟩
  · intro q c hq hnot
    rcases hev.2 q with e | ⟨n, _, _⟩ | ⟨w, _, _⟩
    · unfold InitializeProjectAliased; rw [e]; exact hq
    · rw [hq] at n; cases n
    · obtain ⟨p, hp, rfl⟩ := List.mem_map.1 w
      exact absurd rfl (hnot p hp)
  · rw [hid]; exact InitializeProject_sim config now a.store
end CC
